import Mathlib

/-!
Shallow embedding of the gmcli reply/composition engine.

Strings of the JavaScript source are modelled as `List Char` (`Str`), so that
JavaScript's character-level operations (trim, split, join, toLowerCase,
regular-expression matching) become explicit recursive functions.  Effectful
primitives (the Gmail transport, `fs.readFileSync`, `Date` parsing,
`Buffer` base64 codecs, boundary generation) are parameters of the embedded
functions; everything else is translated directly from the source.
-/

namespace Gmcli

/-- Model of a JavaScript string: its character sequence. -/
abbrev Str := List Char

/-- Membership of a character in JavaScript's `\s` class (the characters that
`String.prototype.trim` and the regex class `\s` treat as whitespace; only the
ASCII ones plus NBSP are modelled, which covers every header this client
handles). -/
def jsWs (c : Char) : Bool :=
  c = ' ' || c = '\t' || c = '\n' || c = '\r' ||
  c = '\x0b' || c = '\x0c' || c = ' '

/-- Model of `String.prototype.trim`: drop `\s` characters from both ends. -/
def jsTrim (s : Str) : Str :=
  (s.dropWhile jsWs).rdropWhile jsWs

/-- Model of `String.prototype.toLowerCase` on the ASCII range. -/
def jsToLower (s : Str) : Str :=
  s.map Char.toLower

/-- JavaScript truthiness of an optional string: `undefined`, `null` and the
empty string are falsy. -/
def optStrTruthy : Option Str → Bool
  | some s => !s.isEmpty
  | none => false

/-- Model of `String.prototype.replace` with a global single-character
pattern: one pass over the string, each occurrence replaced. -/
def replaceAllChar (c : Char) (rep : Str) (s : Str) : Str :=
  s.flatMap (fun x => if x = c then rep else [x])

/-- Model of `Array.prototype.join(sep)`. -/
def jsJoin (sep : Str) (xs : List Str) : Str :=
  List.intercalate sep xs

/-! ## reply-utils.ts -/

/-- Source `formatQuotedBody` (reply-utils.ts): prefix every line with
`"> "`; a falsy (empty) body yields the empty string. -/
def formatQuotedBody (body : Str) : Str :=
  if body.isEmpty then []
  else jsJoin ("\n".toList) ((body.splitOn '\n').map (fun line => "> ".toList ++ line))

/-- Line terminators, which JavaScript's regex `.` does not match. -/
def isLineTerm (c : Char) : Bool :=
  c = '\n' || c = '\r' || c = ' ' || c = ' '

/-- Tail matcher for the `parseEmailAddress` regex
`/^(.+?)\s*<([^>]+)>$/`: given the input after the lazily-matched group 1,
match `\s*<([^>]+)>$` and return group 2.  Because `<` is not in `\s`, the
greedy `\s*` must consume exactly the maximal whitespace run, and because
`[^>]+` cannot cross a `>`, group 2 is forced to be everything between the
`<` and a final `>`. -/
def matchTail (u : Str) : Option Str :=
  match u.dropWhile jsWs with
  | '<' :: r =>
    let m := r.dropLast
    if r.getLastD ' ' = '>' && !m.isEmpty && !m.contains '>' then some m else none
  | _ => none

/-- Lazy search for group 1 of `/^(.+?)\s*<([^>]+)>$/`: try the shortest
non-empty prefix first (the `+?` quantifier), where `.` excludes line
terminators.  Returns `(group1, group2)` on a match. -/
def regexNameEmail (t : Str) : Option (Str × Str) :=
  go [] t
where
  go (g1rev : Str) : Str → Option (Str × Str)
    | [] => none
    | c :: rest =>
      if isLineTerm c then none
      else
        match matchTail rest with
        | some g2 => some ((c :: g1rev).reverse, g2)
        | none => go (c :: g1rev) rest

/-- Structured address produced by `parseEmailAddress`. -/
structure AddressSpec where
  name : Str
  email : Str
deriving DecidableEq, Repr

/-- Source `parseEmailAddress` (reply-utils.ts): match `"Name <email>"`,
otherwise treat the trimmed input as a bare email with empty name. -/
def parseEmailAddress (header : Str) : AddressSpec :=
  let trimmed := jsTrim header
  match regexNameEmail trimmed with
  | some (n, e) => ⟨jsTrim n, jsTrim e⟩
  | none => ⟨[], trimmed⟩

/-- Source `parseEmailList` (reply-utils.ts): split on commas, trim each
segment, parse each as an address, keep the non-empty emails. -/
def parseEmailList (header : Str) : List Str :=
  if !optStrTruthy (some header) || (jsTrim header).isEmpty then []
  else
    ((header.splitOn ',').map (fun entry => (parseEmailAddress (jsTrim entry)).email)).filter
      (fun email => email.length > 0)

/-- Test of the regex `/^re:\s*/i` against a string: the string starts with
`r`/`R`, `e`/`E`, `:` (the trailing `\s*` always matches). -/
def startsWithReColon : Str → Bool
  | r :: e :: c :: _ => r.toLower = 'r' && e.toLower = 'e' && c = ':'
  | _ => false

/-- Source `formatReplySubject` (reply-utils.ts): return the trimmed subject
unchanged when it already starts with `re:` case-insensitively, otherwise
prepend `"Re: "`. -/
def formatReplySubject (subject : Str) : Str :=
  let trimmed := jsTrim subject
  if startsWithReColon trimmed then trimmed
  else "Re: ".toList ++ trimmed

/-- Source `filterSelfFromRecipients` (reply-utils.ts): drop every entry equal
to `selfEmail` up to case. -/
def filterSelfFromRecipients (recipients : List Str) (selfEmail : Str) : List Str :=
  let selfLower := jsToLower selfEmail
  recipients.filter (fun email => !(jsToLower email = selfLower : Bool))

/-- Source `escapeHtml` (reply-utils.ts): the four chained global
replacements, in source order. -/
def escapeHtml (text : Str) : Str :=
  replaceAllChar '"' ("&quot;".toList)
    (replaceAllChar '>' ("&gt;".toList)
      (replaceAllChar '<' ("&lt;".toList)
        (replaceAllChar '&' ("&amp;".toList) text)))

/-- Source `textToHtml` (reply-utils.ts). -/
def textToHtml (text : Str) : Str :=
  replaceAllChar '\n' ("<br>".toList) (escapeHtml text)

/-- Source `formatGmailQuote` (reply-utils.ts); `attrib` models
`formatAttributionLine`, whose output depends on the host `Date` parser and
local time zone and is therefore a parameter of the embedding. -/
def formatGmailQuote (attrib : Str → Str → Str) (date sender body : Str) : Str :=
  "\n\n".toList ++ attrib date sender ++ "\n\n".toList ++ formatQuotedBody body

/-- Source `formatHtmlGmailQuote` (reply-utils.ts); `htmlAttrib` models
`formatHtmlAttributionLine` (a `Date`-dependent parameter).  The quoted
content is the HTML body when truthy, else the escaped plain body. -/
def formatHtmlGmailQuote (htmlAttrib : Str → Str → Str)
    (date sender body htmlBody : Str) : Str :=
  let attributionLine := htmlAttrib date sender
  let quotedContent := if !htmlBody.isEmpty then htmlBody else escapeHtml body
  "<div class=\"gmail_quote gmail_quote_container\">".toList ++
    "<div dir=\"ltr\" class=\"gmail_attr\">".toList ++ attributionLine ++ "<br></div>".toList ++
    "<blockquote class=\"gmail_quote\" style=\"margin:0px 0px 0px 0.8ex;border-left:1px solid rgb(204,204,204);padding-left:1ex\">".toList ++
    quotedContent ++ "</blockquote></div>".toList

/-- Source `formatHtmlReplyBody` (reply-utils.ts). -/
def formatHtmlReplyBody (htmlAttrib : Str → Str → Str)
    (replyText date sender originalBody originalHtmlBody : Str) : Str :=
  let htmlReply := textToHtml replyText
  let htmlQuote := formatHtmlGmailQuote htmlAttrib date sender originalBody originalHtmlBody
  "<div dir=\"ltr\"><div>".toList ++ htmlReply ++ "</div><br>".toList ++ htmlQuote ++ "</div>".toList

/-! ## Gmail message payloads (gmail-service.ts)

A fetched message's `payload` is the Gmail API MIME part tree: every node may
carry a declared `mimeType`, a header list, base64url body `data`, and child
`parts`; any of these may be absent, as in the API's JSON. -/

/-- Raw header object of the Gmail API (`{name?, value?}`). -/
structure RawHeader where
  name : Option Str
  value : Option Str
deriving DecidableEq, Repr

/-- Gmail API MIME part tree node. -/
inductive Payload where
  | mk (mimeType : Option Str) (headers : Option (List RawHeader))
       (bodyData : Option Str) (parts : Option (List Payload))

/-- Declared mime type of a node. -/
def Payload.mimeTypeOf : Payload → Option Str
  | .mk mt _ _ _ => mt

/-- Header list of a node (`payload.headers`). -/
def Payload.headersOf : Payload → Option (List RawHeader)
  | .mk _ hd _ _ => hd

/-- Body data of a node (`payload.body?.data`). -/
def Payload.bodyDataOf : Payload → Option Str
  | .mk _ _ bd _ => bd

/-- Child parts of a node. -/
def Payload.partsOf : Payload → Option (List Payload)
  | .mk _ _ _ ps => ps

/-- JavaScript truthiness of `body?.data`: present and non-empty. -/
def dataOf : Option Str → Option Str
  | some d => if d.isEmpty then none else some d
  | none => none

/-- First pass of the decode loops: the first direct child whose declared
type equals `ty` and whose body data is truthy, returning that data. -/
def findTypedData (ty : Str) : List Payload → Option Str
  | [] => none
  | .mk mt _ bd _ :: qs =>
    match dataOf bd with
    | some d => if mt = some ty then some d else findTypedData ty qs
    | none => findTypedData ty qs

mutual
/-- Source `GmailService.decodeMessageBody` on a non-null payload: any body
data at the current node is decoded and returned (no type check); otherwise
the first direct `text/plain` child with data wins; otherwise each child is
recursed into in order and the first non-empty result is returned.
`decode` models `Buffer.from(data, "base64url").toString()`. -/
def decodeMessageBodyP (decode : Str → Str) : Payload → Str
  | .mk _mt _hd bd ps =>
    match dataOf bd with
    | some d => decode d
    | none =>
      match ps with
      | some parts =>
        match findTypedData ("text/plain".toList) parts with
        | some d => decode d
        | none => decodeBodyLoop decode parts
      | none => []
  termination_by structural p => p

/-- Second loop of `decodeMessageBody`: first truthy recursive result. -/
def decodeBodyLoop (decode : Str → Str) : List Payload → Str
  | [] => []
  | q :: qs =>
    let nested := decodeMessageBodyP decode q
    if !nested.isEmpty then nested else decodeBodyLoop decode qs
  termination_by structural l => l
end

mutual
/-- Source `GmailService.decodeHtmlBody` on a non-null payload: body data at
the current node is returned only when the node's declared type is
`text/html`; otherwise the first direct `text/html` child with data wins;
otherwise each child is recursed into in order. -/
def decodeHtmlBodyP (decode : Str → Str) : Payload → Str
  | .mk mt _hd bd ps =>
    if (dataOf bd).isSome && decide (mt = some ("text/html".toList)) then
      decode ((dataOf bd).getD [])
    else
      match ps with
      | some parts =>
        match findTypedData ("text/html".toList) parts with
        | some d => decode d
        | none => decodeHtmlLoop decode parts
      | none => []
  termination_by structural p => p

/-- Second loop of `decodeHtmlBody`: first truthy recursive result. -/
def decodeHtmlLoop (decode : Str → Str) : List Payload → Str
  | [] => []
  | q :: qs =>
    let nested := decodeHtmlBodyP decode q
    if !nested.isEmpty then nested else decodeHtmlLoop decode qs
  termination_by structural l => l
end

/-- Source `decodeMessageBody` including its `!payload` guard. -/
def decodeMessageBody (decode : Str → Str) : Option Payload → Str
  | none => []
  | some p => decodeMessageBodyP decode p

/-- Source `decodeHtmlBody` including its `!payload` guard. -/
def decodeHtmlBody (decode : Str → Str) : Option Payload → Str
  | none => []
  | some p => decodeHtmlBodyP decode p

/-! ## Reply resolution (gmail-service.ts, getMessageForReply) -/

/-- Fetched full message (`gmail.users.messages.get` result): id, threadId
and the payload tree. -/
structure FullMessage where
  id : Option Str
  threadId : Option Str
  payload : Option Payload

/-- Source header lookup inside `getMessageForReply`: case-insensitive find
on the header name, `|| ""` on the value. -/
def getHeader (headers : List RawHeader) (name : Str) : Str :=
  match headers.find? (fun h => decide (h.name.map jsToLower = some (jsToLower name))) with
  | some h => h.value.getD []
  | none => []

/-- Thread-first resolution step of `getMessageForReply` (the `try`/`catch`
around `gmail.users.threads.get`).  `threadResult` is the transport outcome:
`none` models the fetch throwing, `some msgs` a response whose optional
`messages` array is given by its message ids in stored order.  When the
fetch succeeds and holds at least one message, the last message's id is
used; otherwise the given identifier is kept. -/
def resolveReplyTargetId (threadResult : Option (Option (List Str)))
    (messageOrThreadId : Str) : Str :=
  match threadResult with
  | none => messageOrThreadId
  | some msgs =>
    match msgs with
    | some l => if l.length > 0 then l.getLastD [] else messageOrThreadId
    | none => messageOrThreadId

/-- Record returned by `getMessageForReply`. -/
structure ReplyData where
  messageId : Str
  threadId : Str
  «from» : Str
  «to» : List Str
  cc : List Str
  subject : Str
  date : Str
  body : Str
  htmlBody : Str
  inReplyTo : Str
  references : Str
deriving Repr

/-- Source `GmailService.getMessageForReply`: resolve the target id
(thread-first), fetch the message, extract the headers and bodies, and build
the references chain.  `fetchMessage` models `gmail.users.messages.get`. -/
def getMessageForReply (decode : Str → Str)
    (threadResult : Option (Option (List Str)))
    (fetchMessage : Str → FullMessage)
    (messageOrThreadId : Str) : ReplyData :=
  let messageIdToFetch := resolveReplyTargetId threadResult messageOrThreadId
  let msg := fetchMessage messageIdToFetch
  let headers := (msg.payload.bind Payload.headersOf).getD []
  let fromHeader := getHeader headers ("From".toList)
  let toList := parseEmailList (getHeader headers ("To".toList))
  let cc := parseEmailList (getHeader headers ("Cc".toList))
  let subject := getHeader headers ("Subject".toList)
  let date := getHeader headers ("Date".toList)
  let rfc822MessageId := getHeader headers ("Message-ID".toList)
  let existingRefs := getHeader headers ("References".toList)
  let references :=
    if !existingRefs.isEmpty then existingRefs ++ (" ".toList) ++ rfc822MessageId
    else rfc822MessageId
  let body := decodeMessageBody decode msg.payload
  let htmlBody := decodeHtmlBody decode msg.payload
  { messageId := msg.id.getD [], threadId := msg.threadId.getD [],
    «from» := fromHeader, «to» := toList, cc, subject, date, body, htmlBody,
    inReplyTo := rfc822MessageId, references }

/-! ## MIME composition (gmail-service.ts, createDraft / sendMessage) -/

/-- Model of Node's `path.basename` on POSIX paths: trailing separators are
ignored and the last path segment is returned. -/
def basename (p : Str) : Str :=
  let stripped := p.reverse.dropWhile (fun c => c = '/')
  if stripped.isEmpty then (if p.isEmpty then [] else "/".toList)
  else (stripped.takeWhile (fun c => !(c = '/' : Bool))).reverse

/-- Model of Node's `path.extname`: the suffix from the last dot of the
basename, empty when there is no dot or the dot is the first character. -/
def extname (p : Str) : Str :=
  let b := basename p
  let rev := b.reverse
  let pre := rev.takeWhile (fun c => !(c = '.' : Bool))
  if pre.length = rev.length then []
  else if pre.length + 1 = rev.length then []
  else '.' :: pre.reverse

/-- Source `GmailService.getMimeType`: extension table with an
`application/octet-stream` default. -/
def getMimeType (filename : Str) : Str :=
  let ext := jsToLower (extname filename)
  let mimeTypes : List (Str × Str) := [
    (".pdf".toList, "application/pdf".toList),
    (".doc".toList, "application/msword".toList),
    (".docx".toList, "application/vnd.openxmlformats-officedocument.wordprocessingml.document".toList),
    (".xls".toList, "application/vnd.ms-excel".toList),
    (".xlsx".toList, "application/vnd.openxmlformats-officedocument.spreadsheetml.sheet".toList),
    (".png".toList, "image/png".toList),
    (".jpg".toList, "image/jpeg".toList),
    (".jpeg".toList, "image/jpeg".toList),
    (".gif".toList, "image/gif".toList),
    (".txt".toList, "text/plain".toList),
    (".html".toList, "text/html".toList),
    (".zip".toList, "application/zip".toList),
    (".json".toList, "application/json".toList)]
  match mimeTypes.find? (fun kv => decide (kv.1 = ext)) with
  | some kv => kv.2
  | none => "application/octet-stream".toList

/-- Nested `multipart/alternative` blob pushed as the first part of a
`multipart/mixed` message when a quote is included (createDraft lines
1162-1172 and the identical sendMessage block). -/
def mixedAltPart (boundary altBoundary bodyText htmlBody : Str) : Str :=
  ("--".toList) ++ boundary ++ ("\r\n".toList) ++
  ("Content-Type: multipart/alternative; boundary=\"".toList) ++ altBoundary ++ ("\"\r\n\r\n".toList) ++
  ("--".toList) ++ altBoundary ++ ("\r\n".toList) ++
  ("Content-Type: text/plain; charset=UTF-8\r\n\r\n".toList) ++ bodyText ++
  ("\r\n--".toList) ++ altBoundary ++ ("\r\n".toList) ++
  ("Content-Type: text/html; charset=UTF-8\r\n\r\n".toList) ++ htmlBody ++
  ("\r\n--".toList) ++ altBoundary ++ ("--".toList)

/-- Plain-text first part of a `multipart/mixed` message without a quote. -/
def mixedPlainPart (boundary bodyText : Str) : Str :=
  ("--".toList) ++ boundary ++ ("\r\nContent-Type: text/plain; charset=UTF-8\r\n\r\n".toList) ++ bodyText

/-- Text part of a top-level `multipart/alternative` message. -/
def altTextPart (altBoundary bodyText : Str) : Str :=
  ("--".toList) ++ altBoundary ++ ("\r\nContent-Type: text/plain; charset=UTF-8\r\n\r\n".toList) ++ bodyText

/-- HTML part of a top-level `multipart/alternative` message. -/
def altHtmlPart (altBoundary htmlBody : Str) : Str :=
  ("--".toList) ++ altBoundary ++ ("\r\nContent-Type: text/html; charset=UTF-8\r\n\r\n".toList) ++ htmlBody

/-- Attachment part (one per file path); `readFileB64` models
`fs.readFileSync(filePath).toString("base64")`. -/
def attachmentPart (readFileB64 : Str → Str) (boundary filePath : Str) : Str :=
  let filename := basename filePath
  let base64Content := readFileB64 filePath
  let mimeType := getMimeType filename
  ("--".toList) ++ boundary ++ ("\r\n".toList) ++
  ("Content-Type: ".toList) ++ mimeType ++ ("\r\n".toList) ++
  ("Content-Transfer-Encoding: base64\r\n".toList) ++
  ("Content-Disposition: attachment; filename=\"".toList) ++ filename ++ ("\"\r\n\r\n".toList) ++
  base64Content

/-- Options object of `createDraft`; every field is optional as in the
TypeScript signature. -/
structure DraftOptions where
  cc : Option (List Str) := none
  bcc : Option (List Str) := none
  threadId : Option Str := none
  replyToMessageId : Option Str := none
  attachments : Option (List Str) := none
  replyAll : Option Bool := none
  includeQuote : Option Bool := none

/-- Options object of `sendMessage` (no `threadId` field). -/
structure SendOptions where
  cc : Option (List Str) := none
  bcc : Option (List Str) := none
  replyToMessageId : Option Str := none
  attachments : Option (List Str) := none
  replyAll : Option Bool := none
  includeQuote : Option Bool := none

/-- The `options.attachments && options.attachments.length > 0` test. -/
def attachmentsPresent : Option (List Str) → Bool
  | some l => decide (l.length > 0)
  | none => false

/-- The `replyData && options.includeQuote !== false` test. -/
def quoteIncluded (replyData : Option ReplyData) (includeQuote : Option Bool) : Bool :=
  replyData.isSome && decide (includeQuote ≠ some false)

/-- The `!recipientList || recipientList.length === 0 ||
(recipientList.length === 1 && !recipientList[0])` test: absent list, empty
list, or a single falsy (empty) entry. -/
def emptyRecipients : Option (List Str) → Bool
  | none => true
  | some l => l.isEmpty || (decide (l.length = 1) && (l.headD []).isEmpty)

/-- Everything `createDraft`/`sendMessage` computes before the transport
call, with the locals the source builds along the way, plus the value the
mutated `options.cc` holds after the call. -/
structure ComposeOutcome where
  recipientList : Option (List Str)
  subjectLine : Str
  bodyText : Str
  contentType : Str
  headers : List Str
  parts : List Str
  emailContent : Str
  threadId : Option Str
  optionsCc : Option (List Str)
  replyDataUsed : Option ReplyData

/-- Outcome of the reply auto-fill prologue shared textually by the two
compose functions (each has its own copy in the source). -/
structure AutoFillResult where
  recipientList : Option (List Str)
  subjectLine : Str
  bodyText : Str
  inReplyTo : Option Str
  references : Option Str
  threadId : Option Str
  replyData : Option ReplyData
  optionsCc : Option (List Str)

/-- Header block (createDraft lines 1136-1146 / sendMessage lines
1481-1491): empty entries are removed by `.filter(Boolean)`.  When
`recipientList` is absent the source would throw on `.join`; the embedding
is total and renders an empty `To:` value instead (no theorem evaluates that
case). -/
def buildHeaders (email : Str) (afr : AutoFillResult) (bcc : Option (List Str))
    (contentType : Str) : List Str :=
  ([("From: ".toList) ++ email,
    ("To: ".toList) ++ jsJoin (", ".toList) (afr.recipientList.getD []),
    (match afr.optionsCc with
     | some cc => if !cc.isEmpty then ("Cc: ".toList) ++ jsJoin (", ".toList) cc else []
     | none => []),
    (match bcc with
     | some l => if !l.isEmpty then ("Bcc: ".toList) ++ jsJoin (", ".toList) l else []
     | none => []),
    ("Subject: ".toList) ++ afr.subjectLine,
    (match afr.inReplyTo with
     | some irt => if !irt.isEmpty then ("In-Reply-To: ".toList) ++ irt else []
     | none => []),
    (match afr.references with
     | some refs => if !refs.isEmpty then ("References: ".toList) ++ refs else []
     | none => []),
    ("MIME-Version: 1.0".toList),
    ("Content-Type: ".toList) ++ contentType]).filter (fun h => !h.isEmpty)

/-- Source `GmailService.createDraft` up to (and excluding) the transport
call.  `attrib`/`htmlAttrib` model the two `Date`-dependent attribution
formatters, `getReply` models `this.getMessageForReply(email, ·)`,
`readFileB64` the attachment file read, and `boundary`/`altBoundary` the two
generated boundary tokens. -/
def createDraft (attrib htmlAttrib : Str → Str → Str)
    (getReply : Str → ReplyData) (readFileB64 : Str → Str)
    (boundary altBoundary : Str)
    (email : Str) («to» : Option (List Str)) (subject body : Str)
    (options : DraftOptions) : ComposeOutcome :=
  let originalBody := body
  let afr : AutoFillResult :=
    if optStrTruthy options.replyToMessageId then
      let replyData := getReply (options.replyToMessageId.getD [])
      let emptyTo := emptyRecipients «to»
      let recipientList :=
        if emptyTo then some [(parseEmailAddress replyData.«from»).email] else «to»
      let optionsCc :=
        if emptyTo && options.replyAll.getD false then
          some ((options.cc.getD []) ++
            filterSelfFromRecipients (replyData.«to» ++ replyData.cc) email)
        else options.cc
      let subjectLine := if subject.isEmpty then formatReplySubject replyData.subject else subject
      let bodyText :=
        if options.includeQuote ≠ some false then
          body ++ formatGmailQuote attrib replyData.date replyData.«from» replyData.body
        else body
      { recipientList, subjectLine, bodyText,
        inReplyTo := some replyData.inReplyTo, references := some replyData.references,
        threadId := some replyData.threadId, replyData := some replyData, optionsCc }
    else
      { recipientList := «to», subjectLine := subject, bodyText := body,
        inReplyTo := none, references := none, threadId := options.threadId,
        replyData := none, optionsCc := options.cc }
  let hasAttachments := attachmentsPresent options.attachments
  let hasHtmlQuote := quoteIncluded afr.replyData options.includeQuote
  let contentType :=
    if hasAttachments then
      ("multipart/mixed; boundary=\"".toList) ++ boundary ++ ("\"".toList)
    else if hasHtmlQuote then
      ("multipart/alternative; boundary=\"".toList) ++ altBoundary ++ ("\"".toList)
    else ("text/plain; charset=UTF-8".toList)
  let headers := buildHeaders email afr options.bcc contentType
  let htmlBody :=
    match afr.replyData with
    | some rd => formatHtmlReplyBody htmlAttrib originalBody rd.date rd.«from» rd.body rd.htmlBody
    | none => []
  let (parts, emailContent) :=
    if hasAttachments then
      let firstPart :=
        if hasHtmlQuote then mixedAltPart boundary altBoundary afr.bodyText htmlBody
        else mixedPlainPart boundary afr.bodyText
      let parts := firstPart ::
        (options.attachments.getD []).map (attachmentPart readFileB64 boundary)
      (parts, jsJoin ("\r\n".toList) headers ++ ("\r\n\r\n".toList) ++
        jsJoin ("\r\n".toList) parts ++ ("\r\n--".toList) ++ boundary ++ ("--".toList))
    else if hasHtmlQuote then
      let parts := [altTextPart altBoundary afr.bodyText, altHtmlPart altBoundary htmlBody]
      (parts, jsJoin ("\r\n".toList) headers ++ ("\r\n\r\n".toList) ++
        jsJoin ("\r\n".toList) parts ++ ("\r\n--".toList) ++ altBoundary ++ ("--".toList))
    else ([], jsJoin ("\r\n".toList) headers ++ ("\r\n\r\n".toList) ++ afr.bodyText)
  { recipientList := afr.recipientList, subjectLine := afr.subjectLine,
    bodyText := afr.bodyText, contentType, headers, parts, emailContent,
    threadId := afr.threadId, optionsCc := afr.optionsCc, replyDataUsed := afr.replyData }

/-- Source `GmailService.sendMessage` up to (and excluding) the transport
call; the body repeats `createDraft`'s logic in the source, with `threadId`
starting as `undefined` instead of `options.threadId`. -/
def sendMessage (attrib htmlAttrib : Str → Str → Str)
    (getReply : Str → ReplyData) (readFileB64 : Str → Str)
    (boundary altBoundary : Str)
    (email : Str) («to» : Option (List Str)) (subject body : Str)
    (options : SendOptions) : ComposeOutcome :=
  let originalBody := body
  let afr : AutoFillResult :=
    if optStrTruthy options.replyToMessageId then
      let replyData := getReply (options.replyToMessageId.getD [])
      let emptyTo := emptyRecipients «to»
      let recipientList :=
        if emptyTo then some [(parseEmailAddress replyData.«from»).email] else «to»
      let optionsCc :=
        if emptyTo && options.replyAll.getD false then
          some ((options.cc.getD []) ++
            filterSelfFromRecipients (replyData.«to» ++ replyData.cc) email)
        else options.cc
      let subjectLine := if subject.isEmpty then formatReplySubject replyData.subject else subject
      let bodyText :=
        if options.includeQuote ≠ some false then
          body ++ formatGmailQuote attrib replyData.date replyData.«from» replyData.body
        else body
      { recipientList, subjectLine, bodyText,
        inReplyTo := some replyData.inReplyTo, references := some replyData.references,
        threadId := some replyData.threadId, replyData := some replyData, optionsCc }
    else
      { recipientList := «to», subjectLine := subject, bodyText := body,
        inReplyTo := none, references := none, threadId := none,
        replyData := none, optionsCc := options.cc }
  let hasAttachments := attachmentsPresent options.attachments
  let hasHtmlQuote := quoteIncluded afr.replyData options.includeQuote
  let contentType :=
    if hasAttachments then
      ("multipart/mixed; boundary=\"".toList) ++ boundary ++ ("\"".toList)
    else if hasHtmlQuote then
      ("multipart/alternative; boundary=\"".toList) ++ altBoundary ++ ("\"".toList)
    else ("text/plain; charset=UTF-8".toList)
  let headers := buildHeaders email afr options.bcc contentType
  let htmlBody :=
    match afr.replyData with
    | some rd => formatHtmlReplyBody htmlAttrib originalBody rd.date rd.«from» rd.body rd.htmlBody
    | none => []
  let (parts, emailContent) :=
    if hasAttachments then
      let firstPart :=
        if hasHtmlQuote then mixedAltPart boundary altBoundary afr.bodyText htmlBody
        else mixedPlainPart boundary afr.bodyText
      let parts := firstPart ::
        (options.attachments.getD []).map (attachmentPart readFileB64 boundary)
      (parts, jsJoin ("\r\n".toList) headers ++ ("\r\n\r\n".toList) ++
        jsJoin ("\r\n".toList) parts ++ ("\r\n--".toList) ++ boundary ++ ("--".toList))
    else if hasHtmlQuote then
      let parts := [altTextPart altBoundary afr.bodyText, altHtmlPart altBoundary htmlBody]
      (parts, jsJoin ("\r\n".toList) headers ++ ("\r\n\r\n".toList) ++
        jsJoin ("\r\n".toList) parts ++ ("\r\n--".toList) ++ altBoundary ++ ("--".toList))
    else ([], jsJoin ("\r\n".toList) headers ++ ("\r\n\r\n".toList) ++ afr.bodyText)
  { recipientList := afr.recipientList, subjectLine := afr.subjectLine,
    bodyText := afr.bodyText, contentType, headers, parts, emailContent,
    threadId := afr.threadId, optionsCc := afr.optionsCc, replyDataUsed := afr.replyData }

/-! ## Spec-side models and concrete data used by the theorems -/

/-- Modelled from the spec: the number of comma-separated non-empty segments
of a header, a segment being non-empty when its trimmed content is
non-empty. -/
def nonEmptySegmentCount (header : Str) : Nat :=
  ((header.splitOn ',').filter (fun seg => !(jsTrim seg).isEmpty)).length

/-- Concrete fetched-reply record used by several witnesses: the sending
account `me@x.com` appears (with different casing) in the original
recipients. -/
def sampleReply : ReplyData where
  messageId := "m1".toList
  threadId := "t1".toList
  «from» := "John Doe <john@example.com>".toList
  «to» := [("me@x.com".toList), ("bob@b.b".toList)]
  cc := [("ME@X.COM".toList)]
  subject := "Hi".toList
  date := "D".toList
  body := "B".toList
  htmlBody := []
  inReplyTo := "<mid@x>".toList
  references := "<a@x> <mid@x>".toList

/-- Concrete fetched message that has a `References` header but no
`Message-ID` header. -/
def c3Message : FullMessage where
  id := some ("m9".toList)
  threadId := some ("t9".toList)
  payload := some (.mk none
    (some [{ name := some ("From".toList), value := some ("a@b.c".toList) },
           { name := some ("References".toList), value := some ("<x@y>".toList) }])
    none none)

/-- Concrete fetched message lacking both the `Message-ID` and the
`References` headers. -/
def c3bMessage : FullMessage where
  id := some ("m9".toList)
  threadId := some ("t9".toList)
  payload := some (.mk none
    (some [{ name := some ("From".toList), value := some ("a@b.c".toList) }])
    none none)

/-- Header list of the message fetched for a reply target, as
`getMessageForReply` reads it (`msg.data.payload?.headers || []`). -/
def fetchedHeaders (fetch : Str → FullMessage)
    (threadResult : Option (Option (List Str))) (mid : Str) : List RawHeader :=
  ((fetch (resolveReplyTargetId threadResult mid)).payload.bind Payload.headersOf).getD []

/-- Modelled from the spec: the two body sections of a
`multipart/alternative` — exactly one `text/plain` part and one `text/html`
part, in that order. -/
def altSections (bodyText htmlBody : Str) : List Str :=
  [("Content-Type: text/plain; charset=UTF-8\r\n\r\n".toList) ++ bodyText,
   ("Content-Type: text/html; charset=UTF-8\r\n\r\n".toList) ++ htmlBody]

/-- Modelled from the spec: a multipart body for a boundary token — each
section preceded by its dash-boundary line, closed by the final
dash-boundary terminator. -/
def multipartAssemble (boundary : Str) (sections : List Str) : Str :=
  jsJoin ("\r\n".toList)
    (sections.map (fun s => ("--".toList) ++ boundary ++ ("\r\n".toList) ++ s)) ++
  ("\r\n--".toList) ++ boundary ++ ("--".toList)

/-- Modelled from the spec: the nested `multipart/alternative` first section
of a mixed message carrying a quoted reply. -/
def nestedAltSection (altBoundary bodyText htmlBody : Str) : Str :=
  ("Content-Type: multipart/alternative; boundary=\"".toList) ++ altBoundary ++
  ("\"\r\n\r\n".toList) ++ multipartAssemble altBoundary (altSections bodyText htmlBody)

/-- Modelled from the spec: the single plain-text section of a mixed message
without a quote. -/
def plainSection (bodyText : Str) : Str :=
  ("Content-Type: text/plain; charset=UTF-8\r\n\r\n".toList) ++ bodyText

/-- Modelled from the spec: an attachment section with base64 transfer
encoding and an attachment content-disposition carrying the filename. -/
def specAttachmentSection (mimeType filename content : Str) : Str :=
  ("Content-Type: ".toList) ++ mimeType ++
  ("\r\nContent-Transfer-Encoding: base64\r\nContent-Disposition: attachment; filename=\"".toList) ++
  filename ++ ("\"\r\n\r\n".toList) ++ content

/-! ## Body-extraction candidate models (decodeMessageBody / decodeHtmlBody) -/

/-- Body data of the direct children whose declared type is `ty`, in order
(the parts the decode loops' first pass can return). -/
def directMatches (ty : Str) (parts : List Payload) : List Str :=
  parts.filterMap (fun q =>
    match q with
    | .mk mt _ bd _ =>
      match dataOf bd with
      | some d => if mt = some ty then some d else none
      | none => none)

mutual
/-- Modelled from the spec: the candidate bodies of declared type `ty` in
the claim's search order — the node itself first, then the direct children
with a match, then each child's subtree depth-first. -/
def typedCandidates (ty : Str) : Payload → List Str
  | .mk mt _ bd (some parts) =>
    (match dataOf bd with
     | some d => if mt = some ty then [d] else []
     | none => []) ++ (directMatches ty parts ++ typedCandidatesList ty parts)
  | .mk mt _ bd none =>
    match dataOf bd with
    | some d => if mt = some ty then [d] else []
    | none => []
  termination_by structural p => p

/-- Subtree candidates of a child list, child by child. -/
def typedCandidatesList (ty : Str) : List Payload → List Str
  | [] => []
  | q :: qs => typedCandidates ty q ++ typedCandidatesList ty qs
  termination_by structural l => l
end

mutual
/-- Candidate bodies for the plain-text decoder as the code actually
behaves: the node's own data counts regardless of its declared type, the
direct-children pass is filtered on `text/plain`, and recursion descends
into every child. -/
def plainCandidates : Payload → List Str
  | .mk _mt _ bd (some parts) =>
    (match dataOf bd with
     | some d => [d]
     | none => []) ++
    (directMatches ("text/plain".toList) parts ++ plainCandidatesList parts)
  | .mk _mt _ bd none =>
    match dataOf bd with
    | some d => [d]
    | none => []
  termination_by structural p => p

/-- Subtree plain candidates of a child list, child by child. -/
def plainCandidatesList : List Payload → List Str
  | [] => []
  | q :: qs => plainCandidates q ++ plainCandidatesList qs
  termination_by structural l => l
end

/-- Decode of the first candidate, empty when there is none. -/
def headDecode (decode : Str → Str) : List Str → Str
  | [] => []
  | d :: _ => decode d

/-- Modelled from the spec: the claimed extraction — the decoded body of
the first part of declared type `ty` in level-priority depth-first order,
the empty string when no such part exists. -/
def specTypedExtract (decode : Str → Str) (ty : Str) : Option Payload → Str
  | none => []
  | some p => headDecode decode (typedCandidates ty p)

/-- The plain-text extraction the code actually performs (amended model). -/
def amendedPlainExtract (decode : Str → Str) : Option Payload → Str
  | none => []
  | some p => headDecode decode (plainCandidates p)

/-- Concrete payload tree with a single `text/html` leaf and no `text/plain`
part anywhere. -/
def c5Payload : Payload :=
  .mk (some ("multipart/mixed".toList)) none none
    (some [.mk (some ("text/html".toList)) none (some ("HTML".toList)) none])

/-! ## General lemmas about the string model -/

theorem splitOnP_parts_no_sep {α : Type} {p : α → Bool} :
    ∀ (xs : List α), ∀ l ∈ xs.splitOnP p, ∀ a ∈ l, p a = false := by
  intro xs
  induction xs with
  | nil =>
    intro l hl a ha
    simp only [List.splitOnP_nil, List.mem_singleton] at hl
    subst hl
    simp at ha
  | cons x xs ih =>
    intro l hl a ha
    rw [List.splitOnP_cons] at hl
    cases hp : p x with
    | true =>
      rw [if_pos hp] at hl
      rcases List.mem_cons.mp hl with h | h
      · subst h; simp at ha
      · exact ih l h a ha
    | false =>
      rw [if_neg (by simp [hp])] at hl
      obtain ⟨hd, tl, hsp⟩ : ∃ hd tl, xs.splitOnP p = hd :: tl := by
        rcases h' : xs.splitOnP p with _ | ⟨hd, tl⟩
        · exact absurd h' (List.splitOnP_ne_nil p xs)
        · exact ⟨hd, tl, rfl⟩
      rw [hsp] at hl
      simp only [List.modifyHead, List.mem_cons] at hl
      rcases hl with h | h
      · subst h
        rcases List.mem_cons.mp ha with h | h
        · subst h; exact hp
        · exact ih hd (by rw [hsp]; exact List.mem_cons_self _ _) a h
      · exact ih l (by rw [hsp]; exact List.mem_cons_of_mem _ h) a ha

theorem splitOnP_parts_subset {α : Type} {p : α → Bool} :
    ∀ (xs : List α), ∀ l ∈ xs.splitOnP p, ∀ a ∈ l, a ∈ xs := by
  intro xs
  induction xs with
  | nil =>
    intro l hl a ha
    simp only [List.splitOnP_nil, List.mem_singleton] at hl
    subst hl
    simp at ha
  | cons x xs ih =>
    intro l hl a ha
    rw [List.splitOnP_cons] at hl
    cases hp : p x with
    | true =>
      rw [if_pos hp] at hl
      rcases List.mem_cons.mp hl with h | h
      · subst h; simp at ha
      · exact List.mem_cons_of_mem _ (ih l h a ha)
    | false =>
      rw [if_neg (by simp [hp])] at hl
      obtain ⟨hd, tl, hsp⟩ : ∃ hd tl, xs.splitOnP p = hd :: tl := by
        rcases h' : xs.splitOnP p with _ | ⟨hd, tl⟩
        · exact absurd h' (List.splitOnP_ne_nil p xs)
        · exact ⟨hd, tl, rfl⟩
      rw [hsp] at hl
      simp only [List.modifyHead, List.mem_cons] at hl
      rcases hl with h | h
      · subst h
        rcases List.mem_cons.mp ha with h | h
        · subst h; exact List.mem_cons_self _ _
        · exact List.mem_cons_of_mem _
            (ih hd (by rw [hsp]; exact List.mem_cons_self _ _) a h)
      · exact List.mem_cons_of_mem _
          (ih l (by rw [hsp]; exact List.mem_cons_of_mem _ h) a ha)

theorem splitOnP_concat_sep {α : Type} {p : α → Bool} {a : α} (hpa : p a = true) :
    ∀ (xs : List α), (xs ++ [a]).splitOnP p = xs.splitOnP p ++ [[]] := by
  intro xs
  induction xs with
  | nil => simp [List.splitOnP_cons, hpa]
  | cons x xs ih =>
    rw [List.cons_append, List.splitOnP_cons, List.splitOnP_cons]
    cases hp : p x with
    | true => simp [ih]
    | false =>
      obtain ⟨hd, tl, hsp⟩ : ∃ hd tl, xs.splitOnP p = hd :: tl := by
        rcases h' : xs.splitOnP p with _ | ⟨hd, tl⟩
        · exact absurd h' (List.splitOnP_ne_nil p xs)
        · exact ⟨hd, tl, rfl⟩
      simp [ih, hsp, List.modifyHead]

theorem jsTrim_getLast_not_ws (s : Str) (h : jsTrim s ≠ []) :
    jsWs ((jsTrim s).getLast h) = false := by
  have := List.rdropWhile_last_not jsWs (s.dropWhile jsWs) h
  simpa using this

theorem jsTrim_head_not_ws (s : Str) (h : jsTrim s ≠ []) :
    jsWs ((jsTrim s).head h) = false := by
  obtain ⟨t, ht⟩ := List.rdropWhile_prefix jsWs (s.dropWhile jsWs)
  have hu : s.dropWhile jsWs ≠ [] := by
    intro hnil
    apply h
    simp [jsTrim, hnil]
  have h3 : (s.dropWhile jsWs).head? = (jsTrim s).head? := by
    conv_lhs => rw [← ht]
    rw [List.head?_append]
    rw [show List.rdropWhile jsWs (List.dropWhile jsWs s) = jsTrim s from rfl]
    rw [List.head?_eq_head h]
    rfl
  have h4 : (s.dropWhile jsWs).head hu = (jsTrim s).head h :=
    Option.some.inj
      ((List.head?_eq_head hu).symm.trans (h3.trans (List.head?_eq_head h)))
  rw [← h4]
  have := List.head_dropWhile_not jsWs s hu
  simpa using this

theorem jsTrim_eq_self {s : Str} (h : s ≠ [])
    (hh : jsWs (s.head h) = false) (hl : jsWs (s.getLast h) = false) :
    jsTrim s = s := by
  cases s with
  | nil => exact absurd rfl h
  | cons a t =>
    have hh' : ¬ jsWs a = true := by simpa using hh
    unfold jsTrim
    rw [List.dropWhile_cons_of_neg hh']
    exact List.rdropWhile_eq_self_iff.mpr (fun _ => by simpa using hl)

theorem jsJoin_pair (sep x y : Str) : jsJoin sep [x, y] = x ++ (sep ++ y) := by
  simp [jsJoin, List.intercalate]

theorem mixedAltPart_spec (b ab x y : Str) :
    mixedAltPart b ab x y =
      ("--".toList) ++ b ++ ("\r\n".toList) ++ nestedAltSection ab x y := by
  unfold mixedAltPart nestedAltSection multipartAssemble altSections
  rw [List.map_cons, List.map_cons, List.map_nil, jsJoin_pair]
  simp only [List.append_assoc]
  rfl

theorem attachmentPart_spec (R : Str → Str) (b fp : Str) :
    attachmentPart R b fp =
      ("--".toList) ++ b ++ ("\r\n".toList) ++
        specAttachmentSection (getMimeType (basename fp)) (basename fp) (R fp) := by
  unfold attachmentPart specAttachmentSection
  simp only [List.append_assoc]
  rfl

theorem altPair_spec (ab x y : Str) :
    jsJoin ("\r\n".toList) [altTextPart ab x, altHtmlPart ab y] ++
      (("\r\n--".toList) ++ (ab ++ ("--".toList))) =
    multipartAssemble ab (altSections x y) := by
  unfold altTextPart altHtmlPart multipartAssemble altSections
  rw [List.map_cons, List.map_cons, List.map_nil, jsJoin_pair, jsJoin_pair]
  simp only [List.append_assoc]
  rfl

theorem mixedPlain_spec (b x : Str) :
    mixedPlainPart b x = ("--".toList) ++ b ++ ("\r\n".toList) ++ plainSection x := by
  unfold mixedPlainPart plainSection
  simp only [List.append_assoc]
  rfl

theorem prefix_append_left_iff {p c : Str} (x : Str) (hl : p.length ≤ c.length) :
    p <+: c ++ x ↔ p <+: c := by
  constructor
  · intro h
    rw [List.prefix_iff_eq_take] at h ⊢
    rw [h, List.take_append_eq_append_take]
    have h0 : p.length - c.length = 0 := Nat.sub_eq_zero_of_le hl
    rw [h0]
    simp
  · intro h
    exact h.trans (List.prefix_append c x)

theorem altSections_counts (x y : Str) :
    (altSections x y).countP (fun s => ("Content-Type: text/plain".toList).isPrefixOf s) = 1
  ∧ (altSections x y).countP (fun s => ("Content-Type: text/html".toList).isPrefixOf s) = 1
  ∧ (altSections x y).length = 2 := by
  have h1 : ("Content-Type: text/plain".toList).isPrefixOf
      (("Content-Type: text/plain; charset=UTF-8\r\n\r\n".toList) ++ x) = true := by
    rw [List.isPrefixOf_iff_prefix]
    exact List.IsPrefix.trans (by decide) (List.prefix_append _ _)
  have h2 : ("Content-Type: text/plain".toList).isPrefixOf
      (("Content-Type: text/html; charset=UTF-8\r\n\r\n".toList) ++ y) = false := by
    rw [Bool.eq_false_iff]
    intro hp
    rw [List.isPrefixOf_iff_prefix] at hp
    exact absurd ((prefix_append_left_iff y (by decide)).mp hp) (by decide)
  have h3 : ("Content-Type: text/html".toList).isPrefixOf
      (("Content-Type: text/html; charset=UTF-8\r\n\r\n".toList) ++ y) = true := by
    rw [List.isPrefixOf_iff_prefix]
    exact List.IsPrefix.trans (by decide) (List.prefix_append _ _)
  have h4 : ("Content-Type: text/html".toList).isPrefixOf
      (("Content-Type: text/plain; charset=UTF-8\r\n\r\n".toList) ++ x) = false := by
    rw [Bool.eq_false_iff]
    intro hp
    rw [List.isPrefixOf_iff_prefix] at hp
    exact absurd ((prefix_append_left_iff x (by decide)).mp hp) (by decide)
  refine ⟨?_, ?_, rfl⟩
  · simp [altSections, List.countP_cons, h1, h2]
  · simp [altSections, List.countP_cons, h3, h4]

theorem mixed_assemble (R : Str → Str) (b s0 : Str) (atts : List Str) :
    jsJoin ("\r\n".toList)
        ((("--".toList) ++ (b ++ (("\r\n".toList) ++ s0))) :: atts.map (attachmentPart R b)) ++
      (("\r\n--".toList) ++ (b ++ ("--".toList))) =
    multipartAssemble b (s0 :: atts.map (fun fp =>
      specAttachmentSection (getMimeType (basename fp)) (basename fp) (R fp))) := by
  have hmap : atts.map (attachmentPart R b) = atts.map
      ((fun s => ("--".toList) ++ b ++ ("\r\n".toList) ++ s) ∘
        (fun fp => specAttachmentSection (getMimeType (basename fp)) (basename fp) (R fp))) := by
    apply List.map_congr_left
    intro fp _
    exact attachmentPart_spec R b fp
  rw [hmap]
  unfold multipartAssemble
  rw [List.map_cons, List.map_map]
  simp only [Function.comp, List.append_assoc]


/-! ## Body-extraction refinement lemmas -/

theorem dataOf_ne_nil {o : Option Str} {d : Str} (h : dataOf o = some d) : d ≠ [] := by
  rcases o with _ | x
  · simp [dataOf] at h
  · by_cases he : x.isEmpty = true
    · simp [dataOf, he] at h
    · have he' : x.isEmpty = false := by simpa using he
      simp [dataOf, he'] at h
      subst h
      simpa using he

theorem directMatches_nonempty (ty : Str) :
    ∀ parts : List Payload, ∀ d ∈ directMatches ty parts, d ≠ [] := by
  intro parts
  induction parts with
  | nil => intro d hd; simp [directMatches] at hd
  | cons q qs ih =>
    intro d hd
    rcases q with ⟨mt, hdr, bd, ps⟩
    simp only [directMatches, List.filterMap_cons] at hd
    rcases hdata : dataOf bd with _ | x
    · simp only [hdata] at hd
      exact ih d hd
    · simp only [hdata] at hd
      by_cases hmt : mt = some ty
      · rw [if_pos hmt] at hd
        rcases List.mem_cons.mp hd with h | h
        · subst h; exact dataOf_ne_nil hdata
        · exact ih d h
      · rw [if_neg hmt] at hd
        exact ih d hd

theorem rootCandidate_nonempty (ty : Str) (mt : Option Str) (bd : Option Str) :
    ∀ d ∈ (match dataOf bd with
            | some x => if mt = some ty then [x] else []
            | none => ([] : List Str)), d ≠ [] := by
  intro d hd
  rcases hdata : dataOf bd with _ | x
  · simp only [hdata] at hd; simp at hd
  · simp only [hdata] at hd
    by_cases hmt : mt = some ty
    · rw [if_pos hmt] at hd
      simp only [List.mem_singleton] at hd
      subst hd
      exact dataOf_ne_nil hdata
    · rw [if_neg hmt] at hd; simp at hd

mutual
theorem typedCandidates_nonempty (ty : Str) :
    ∀ p : Payload, ∀ d ∈ typedCandidates ty p, d ≠ []
  | .mk mt hdr bd (some parts) => by
    intro d hd
    simp only [typedCandidates] at hd
    rcases List.mem_append.mp hd with h | h
    · exact rootCandidate_nonempty ty mt bd d h
    · rcases List.mem_append.mp h with h2 | h2
      · exact directMatches_nonempty ty parts d h2
      · exact typedCandidatesList_nonempty ty parts d h2
  | .mk mt hdr bd none => by
    intro d hd
    simp only [typedCandidates] at hd
    exact rootCandidate_nonempty ty mt bd d hd
  termination_by structural p => p

theorem typedCandidatesList_nonempty (ty : Str) :
    ∀ parts : List Payload, ∀ d ∈ typedCandidatesList ty parts, d ≠ []
  | [] => by intro d hd; simp [typedCandidatesList] at hd
  | q :: qs => by
    intro d hd
    simp only [typedCandidatesList] at hd
    rcases List.mem_append.mp hd with h | h
    · exact typedCandidates_nonempty ty q d h
    · exact typedCandidatesList_nonempty ty qs d h
  termination_by structural l => l
end

mutual
theorem plainCandidates_nonempty :
    ∀ p : Payload, ∀ d ∈ plainCandidates p, d ≠ []
  | .mk mt hdr bd (some parts) => by
    intro d hd
    simp only [plainCandidates] at hd
    rcases List.mem_append.mp hd with h | h
    · rcases hdata : dataOf bd with _ | x
      · simp only [hdata] at h; simp at h
      · simp only [hdata] at h
        simp only [List.mem_singleton] at h
        subst h
        exact dataOf_ne_nil hdata
    · rcases List.mem_append.mp h with h2 | h2
      · exact directMatches_nonempty ("text/plain".toList) parts d h2
      · exact plainCandidatesList_nonempty parts d h2
  | .mk mt hdr bd none => by
    intro d hd
    simp only [plainCandidates] at hd
    rcases hdata : dataOf bd with _ | x
    · simp only [hdata] at hd; simp at hd
    · simp only [hdata] at hd
      simp only [List.mem_singleton] at hd
      subst hd
      exact dataOf_ne_nil hdata
  termination_by structural p => p

theorem plainCandidatesList_nonempty :
    ∀ parts : List Payload, ∀ d ∈ plainCandidatesList parts, d ≠ []
  | [] => by intro d hd; simp [plainCandidatesList] at hd
  | q :: qs => by
    intro d hd
    simp only [plainCandidatesList] at hd
    rcases List.mem_append.mp hd with h | h
    · exact plainCandidates_nonempty q d h
    · exact plainCandidatesList_nonempty qs d h
  termination_by structural l => l
end

theorem findTypedData_eq (ty : Str) :
    ∀ parts : List Payload, findTypedData ty parts = (directMatches ty parts).head? := by
  intro parts
  induction parts with
  | nil => rfl
  | cons q qs ih =>
    rcases q with ⟨mt, hdr, bd, ps⟩
    simp only [findTypedData, directMatches, List.filterMap_cons]
    rcases hdata : dataOf bd with _ | d
    · simp only [hdata]
      rw [ih]
      rfl
    · simp only [hdata]
      by_cases hmt : mt = some ty
      · rw [if_pos hmt, if_pos hmt]
        rfl
      · rw [if_neg hmt, if_neg hmt, ih]
        rfl

mutual
theorem decodeHtmlBodyP_eq (decode : Str → Str)
    (hdec : ∀ d : Str, d ≠ [] → decode d ≠ []) :
    ∀ p : Payload,
      decodeHtmlBodyP decode p = headDecode decode (typedCandidates ("text/html".toList) p)
  | .mk mt hdr bd (some parts) => by
    simp only [decodeHtmlBodyP, typedCandidates]
    rcases hdata : dataOf bd with _ | x
    · simp only [hdata, Option.isSome_none, Bool.false_and, Bool.false_eq_true, if_false,
        List.nil_append]
      rw [findTypedData_eq]
      rcases hdm : directMatches ("text/html".toList) parts with _ | ⟨d, rest⟩
      · simp only [List.head?_nil, List.nil_append]
        exact decodeHtmlLoop_eq decode hdec parts
      · simp only [List.head?_cons, List.cons_append, headDecode]
    · by_cases hmt : mt = some ("text/html".toList)
      · simp only [hdata, hmt, Option.isSome_some, Option.getD_some, Bool.true_and,
          decide_eq_true_eq, eq_self_iff_true, if_true, List.cons_append, headDecode]
      · have hd' : decide (mt = some ("text/html".toList)) = false :=
          decide_eq_false hmt
        simp only [hdata, hd', Option.isSome_some, Bool.true_and, Bool.false_eq_true,
          if_false, if_neg hmt, List.nil_append]
        rw [findTypedData_eq]
        rcases hdm : directMatches ("text/html".toList) parts with _ | ⟨d, rest⟩
        · simp only [List.head?_nil, List.nil_append]
          exact decodeHtmlLoop_eq decode hdec parts
        · simp only [List.head?_cons, List.cons_append, headDecode]
  | .mk mt hdr bd none => by
    simp only [decodeHtmlBodyP, typedCandidates]
    rcases hdata : dataOf bd with _ | x
    · simp only [hdata, Option.isSome_none, Bool.false_and, Bool.false_eq_true, if_false,
        headDecode]
    · by_cases hmt : mt = some ("text/html".toList)
      · simp only [hdata, hmt, Option.isSome_some, Option.getD_some, Bool.true_and,
          decide_eq_true_eq, eq_self_iff_true, if_true, headDecode]
      · have hd' : decide (mt = some ("text/html".toList)) = false :=
          decide_eq_false hmt
        simp only [hdata, hd', Option.isSome_some, Bool.true_and, Bool.false_eq_true,
          if_false, if_neg hmt, headDecode]
  termination_by structural p => p

theorem decodeHtmlLoop_eq (decode : Str → Str)
    (hdec : ∀ d : Str, d ≠ [] → decode d ≠ []) :
    ∀ parts : List Payload,
      decodeHtmlLoop decode parts =
        headDecode decode (typedCandidatesList ("text/html".toList) parts)
  | [] => by simp [decodeHtmlLoop, typedCandidatesList, headDecode]
  | q :: qs => by
    simp only [decodeHtmlLoop, typedCandidatesList]
    rw [decodeHtmlBodyP_eq decode hdec q]
    rcases hc : typedCandidates ("text/html".toList) q with _ | ⟨d, rest⟩
    · simp only [headDecode, List.isEmpty_nil, Bool.not_true, Bool.false_eq_true, if_false,
        List.nil_append]
      exact decodeHtmlLoop_eq decode hdec qs
    · have hdne : d ≠ [] :=
        typedCandidates_nonempty ("text/html".toList) q d (by rw [hc]; exact List.mem_cons_self _ _)
      have hde : (decode d).isEmpty = false := by
        simpa [List.isEmpty_iff] using hdec d hdne
      simp only [headDecode, hde, Bool.not_false, if_true, List.cons_append]
  termination_by structural l => l
end

mutual
theorem decodeMessageBodyP_eq (decode : Str → Str)
    (hdec : ∀ d : Str, d ≠ [] → decode d ≠ []) :
    ∀ p : Payload,
      decodeMessageBodyP decode p = headDecode decode (plainCandidates p)
  | .mk mt hdr bd (some parts) => by
    simp only [decodeMessageBodyP, plainCandidates]
    rcases hdata : dataOf bd with _ | x
    · simp only [hdata, List.nil_append]
      rw [findTypedData_eq]
      rcases hdm : directMatches ("text/plain".toList) parts with _ | ⟨d, rest⟩
      · simp only [List.head?_nil, List.nil_append]
        exact decodeBodyLoop_eq decode hdec parts
      · simp only [List.head?_cons, List.cons_append, headDecode]
    · simp only [hdata, List.cons_append, headDecode]
  | .mk mt hdr bd none => by
    simp only [decodeMessageBodyP, plainCandidates]
    rcases hdata : dataOf bd with _ | x
    · simp only [hdata, headDecode]
    · simp only [hdata, headDecode]
  termination_by structural p => p

theorem decodeBodyLoop_eq (decode : Str → Str)
    (hdec : ∀ d : Str, d ≠ [] → decode d ≠ []) :
    ∀ parts : List Payload,
      decodeBodyLoop decode parts = headDecode decode (plainCandidatesList parts)
  | [] => by simp [decodeBodyLoop, plainCandidatesList, headDecode]
  | q :: qs => by
    simp only [decodeBodyLoop, plainCandidatesList]
    rw [decodeMessageBodyP_eq decode hdec q]
    rcases hc : plainCandidates q with _ | ⟨d, rest⟩
    · simp only [headDecode, List.isEmpty_nil, Bool.not_true, Bool.false_eq_true, if_false,
        List.nil_append]
      exact decodeBodyLoop_eq decode hdec qs
    · have hdne : d ≠ [] :=
        plainCandidates_nonempty q d (by rw [hc]; exact List.mem_cons_self _ _)
      have hde : (decode d).isEmpty = false := by
        simpa [List.isEmpty_iff] using hdec d hdne
      simp only [headDecode, hde, Bool.not_false, if_true, List.cons_append]
  termination_by structural l => l
end

/-! ## Claim theorems -/

/-- C1: `getMessageForReply` resolves a reply target thread-first: a
successful thread fetch with one or more messages selects the last stored
message (the third of three), a failed fetch falls back to the identifier
itself, and the message subsequently fetched is exactly the resolved one. -/
theorem c1_thread_first_reply_resolution (messageOrThreadId : Str) :
    (∀ (msgs : List Str) (h : msgs ≠ []),
        resolveReplyTargetId (some (some msgs)) messageOrThreadId = msgs.getLast h)
  ∧ (∀ m1 m2 m3 : Str,
        resolveReplyTargetId (some (some [m1, m2, m3])) messageOrThreadId = m3)
  ∧ resolveReplyTargetId none messageOrThreadId = messageOrThreadId
  ∧ (∀ (decode : Str → Str) (threadResult : Option (Option (List Str)))
        (fetchMessage : Str → FullMessage),
        (getMessageForReply decode threadResult fetchMessage messageOrThreadId).messageId =
          ((fetchMessage (resolveReplyTargetId threadResult messageOrThreadId)).id).getD []) := by
  have hmain : ∀ (msgs : List Str) (h : msgs ≠ []),
      resolveReplyTargetId (some (some msgs)) messageOrThreadId = msgs.getLast h := by
    intro msgs h
    show (if msgs.length > 0 then msgs.getLastD [] else messageOrThreadId) = msgs.getLast h
    rw [if_pos (List.length_pos.mpr h)]
    rw [List.getLastD_eq_getLast?, List.getLast?_eq_getLast msgs h, Option.getD_some]
  refine ⟨hmain, ?_, rfl, ?_⟩
  · intro m1 m2 m3
    rw [hmain [m1, m2, m3] (by simp)]
    simp
  · intro decode threadResult fetchMessage
    rfl

/-- Witness for C1: a thread with three stored messages resolves to the
third one. -/
theorem c1_witness :
    resolveReplyTargetId (some (some [("m1".toList), ("m2".toList), ("m3".toList)]))
      ("tid".toList) = ("m3".toList) :=
  (c1_thread_first_reply_resolution ("tid".toList)).2.1 _ _ _

/-- C9: `formatQuotedBody` prefixes every line (split on newline) with
`"> "`: the empty body yields the empty string, splitting the output
recovers exactly the prefixed lines, and a body with a trailing newline ends
in a final line that is exactly `"> "`. -/
theorem c9_format_quoted_body (body : Str) :
    formatQuotedBody [] = []
  ∧ (¬ body.isEmpty →
      (formatQuotedBody body).splitOn '\n' =
        (body.splitOn '\n').map (fun line => "> ".toList ++ line))
  ∧ (∀ b' : Str, body = b' ++ ['\n'] →
      ((formatQuotedBody body).splitOn '\n').getLast? = some ("> ".toList)) := by
  have hsplit : ∀ b : Str, ¬ b.isEmpty →
      (formatQuotedBody b).splitOn '\n' =
        (b.splitOn '\n').map (fun line => "> ".toList ++ line) := by
    intro b hb
    unfold formatQuotedBody
    rw [if_neg (by simpa using hb)]
    show (List.intercalate (("\n".toList))
        ((b.splitOn '\n').map (fun line => "> ".toList ++ line))).splitOn '\n' = _
    have hnl : ("\n".toList : Str) = ['\n'] := rfl
    rw [hnl]
    apply List.splitOn_intercalate
    · intro l hl hmem
      obtain ⟨piece, hpiece, rfl⟩ := List.mem_map.mp hl
      rcases List.mem_append.mp hmem with h | h
      · simp at h
      · have := splitOnP_parts_no_sep b piece hpiece '\n' h
        simp at this
    · intro hmapnil
      exact List.splitOnP_ne_nil _ b (List.map_eq_nil_iff.mp hmapnil)
  refine ⟨rfl, hsplit body, ?_⟩
  intro b' hb'
  have hne : ¬ body.isEmpty := by
    subst hb'
    simp
  rw [hsplit body hne]
  subst hb'
  show ((((b' ++ ['\n']).splitOnP (· == '\n'))).map
      (fun line => "> ".toList ++ line)).getLast? = _
  rw [splitOnP_concat_sep (by simp) b']
  rw [List.map_append]
  simp

/-- Witness for C9: a concrete body with a trailing newline produces a final
`"> "` line, and a concrete two-line body splits into its prefixed lines. -/
theorem c9_witness :
    ¬ (("a\nb\n".toList : Str)).isEmpty
  ∧ ((formatQuotedBody ("a\nb\n".toList)).splitOn '\n').getLast? = some ("> ".toList) :=
  ⟨by decide, (c9_format_quoted_body ("a\nb\n".toList)).2.2 ("a\nb".toList) (by decide)⟩

/-- C8 counterexample: on the empty subject the function is not idempotent —
the first application yields `"Re: "` (trailing space kept because the
trimmed empty subject is appended to the constant prefix), the second trims
that to `"Re:"`. -/
theorem c8_counterexample :
    formatReplySubject (formatReplySubject ([] : Str)) ≠ formatReplySubject ([] : Str) := by
  decide

/-- C8 (amended): `formatReplySubject` prefixes `"Re: "` unless the trimmed
subject already starts case-insensitively with `"re:"` (returning the
trimmed original), and it is idempotent on every subject whose trimmed form
is non-empty (idempotence fails only for whitespace-only subjects, where the
second application drops the trailing space of `"Re: "`). -/
theorem c8_amended_reply_subject (subject : Str) :
    (formatReplySubject subject =
      if startsWithReColon (jsTrim subject) then jsTrim subject
      else "Re: ".toList ++ jsTrim subject)
  ∧ (jsTrim subject ≠ [] →
      formatReplySubject (formatReplySubject subject) = formatReplySubject subject) := by
  refine ⟨rfl, ?_⟩
  intro h
  by_cases hs : startsWithReColon (jsTrim subject) = true
  · have h0 : formatReplySubject subject = jsTrim subject := by
      simp [formatReplySubject, hs]
    have htr : jsTrim (jsTrim subject) = jsTrim subject :=
      jsTrim_eq_self h (jsTrim_head_not_ws subject h) (jsTrim_getLast_not_ws subject h)
    rw [h0]
    simp [formatReplySubject, htr, hs]
  · have hs' : startsWithReColon (jsTrim subject) = false := by
      simpa using hs
    have h0 : formatReplySubject subject = "Re: ".toList ++ jsTrim subject := by
      simp [formatReplySubject, hs']
    rw [h0]
    have hne2 : ("Re: ".toList ++ jsTrim subject : Str) ≠ [] := by simp
    have hh : jsWs (("Re: ".toList ++ jsTrim subject : Str).head hne2) = false := rfl
    have hlast : jsWs (("Re: ".toList ++ jsTrim subject : Str).getLast hne2) = false := by
      rw [List.getLast_append_of_ne_nil h]
      exact jsTrim_getLast_not_ws subject h
    have htrim2 : jsTrim ("Re: ".toList ++ jsTrim subject) = "Re: ".toList ++ jsTrim subject :=
      jsTrim_eq_self hne2 hh hlast
    have hstarts : startsWithReColon ("Re: ".toList ++ jsTrim subject) = true := rfl
    show (if startsWithReColon (jsTrim ("Re: ".toList ++ jsTrim subject)) = true
        then jsTrim ("Re: ".toList ++ jsTrim subject)
        else "Re: ".toList ++ jsTrim ("Re: ".toList ++ jsTrim subject)) =
      "Re: ".toList ++ jsTrim subject
    rw [htrim2, if_pos hstarts]

/-- Witness for C8: on a concrete non-whitespace subject the amended
idempotence holds. -/
theorem c8_witness :
    jsTrim ("Meeting".toList) ≠ []
  ∧ formatReplySubject (formatReplySubject ("Meeting".toList)) =
      formatReplySubject ("Meeting".toList) :=
  ⟨by decide, (c8_amended_reply_subject ("Meeting".toList)).2 (by decide)⟩

/-- C7 counterexample: the header `"a@x.com, B < >"` has two non-empty
comma-separated segments, but the second parses to an empty email (its
angle-bracket payload is whitespace-only) and is filtered out, so the parser
returns one entry, not two. -/
theorem c7_counterexample :
    (parseEmailList ("a@x.com, B < >".toList)).length ≠
      nonEmptySegmentCount ("a@x.com, B < >".toList) := by
  decide

/-- C7 (amended): the length of `parseEmailList header` equals the number of
comma-separated segments whose trimmed content parses to a non-empty email
(segments parsing to an empty email, such as whitespace-only segments or a
name with a whitespace-only angle-bracket payload, are dropped); the length
never exceeds the number of segments, and whitespace-only input yields the
empty list. -/
theorem c7_amended_parse_email_list (header : Str) :
    (parseEmailList header).length =
      (header.splitOn ',').countP
        (fun entry => !((parseEmailAddress (jsTrim entry)).email.isEmpty))
  ∧ (jsTrim header = [] → parseEmailList header = [])
  ∧ (parseEmailList header).length ≤ (header.splitOn ',').length := by
  by_cases hdr : (jsTrim header).isEmpty = true
  · have hemp : parseEmailList header = [] := by
      simp [parseEmailList, hdr]
    have hallws : ∀ c ∈ header, jsWs c = true := by
      intro c hc
      have hsplit := List.takeWhile_append_dropWhile (p := jsWs) (l := header)
      rw [← hsplit] at hc
      rcases List.mem_append.mp hc with h | h
      · exact List.mem_takeWhile_imp h
      · have hrd : (header.dropWhile jsWs).rdropWhile jsWs = [] := by
          simpa [jsTrim] using (List.isEmpty_iff.mp hdr)
        exact List.rdropWhile_eq_nil_iff.mp hrd c h
    refine ⟨?_, fun _ => hemp, by simp [hemp]⟩
    rw [hemp]
    show ([] : List Str).length = _
    simp only [List.length_nil]
    symm
    rw [List.countP_eq_zero]
    intro entry hentry
    have hws : ∀ c ∈ entry, jsWs c = true := by
      intro c hc
      exact hallws c (splitOnP_parts_subset header entry hentry c hc)
    have htr : jsTrim entry = [] := by
      have : entry.dropWhile jsWs = [] := List.dropWhile_eq_nil_iff.mpr hws
      simp [jsTrim, this]
    have : parseEmailAddress (jsTrim entry) = ⟨[], []⟩ := by
      rw [htr]
      rfl
    simp [this]
  · have hne : ¬ ((jsTrim header).isEmpty = true) := hdr
    have hhd : ¬ (header.isEmpty = true) := by
      intro hh
      apply hne
      rw [List.isEmpty_iff.mp hh]
      rfl
    have e1 : (jsTrim header).isEmpty = false := by simpa using hne
    have e2 : header.isEmpty = false := by simpa using hhd
    have hcond : (!optStrTruthy (some header) || (jsTrim header).isEmpty) = false := by
      have : optStrTruthy (some header) = true := by simp [optStrTruthy, e2]
      simp [this, e1]
    have hlist : parseEmailList header =
        ((header.splitOn ',').map
          (fun entry => (parseEmailAddress (jsTrim entry)).email)).filter
          (fun email => email.length > 0) := by
      unfold parseEmailList
      rw [hcond]
      simp
    refine ⟨?_, ?_, ?_⟩
    · rw [hlist, ← List.countP_eq_length_filter, List.countP_map]
      apply List.countP_congr
      intro entry _
      cases hmail : (parseEmailAddress (jsTrim entry)).email with
      | nil => simp [Function.comp, hmail]
      | cons c cs => simp [Function.comp, hmail]
    · intro h
      exact absurd (by rw [h]; rfl) hne
    · rw [hlist]
      calc (((header.splitOn ',').map _).filter _).length
          ≤ ((header.splitOn ',').map
              (fun entry => (parseEmailAddress (jsTrim entry)).email)).length :=
            List.length_filter_le _ _
        _ = (header.splitOn ',').length := List.length_map _ _

/-- Witness for C7: applying the amended statement to a whitespace-only
header yields the empty list. -/
theorem c7_witness :
    jsTrim ("  ".toList) = [] ∧ parseEmailList ("  ".toList) = [] :=
  ⟨by decide, (c7_amended_parse_email_list ("  ".toList)).2.1 (by decide)⟩

/-- C6: with no explicit recipients and the reply-all flag set (and no
caller-supplied cc), the composed cc list is the original `to ++ cc` with
every occurrence of the account's own address removed by case-insensitive
match; membership and order of the survivors are exactly those of the
original list, and the spec's concrete example filters to the empty list. -/
theorem c6_reply_all_cc_filtering
    (A H : Str → Str → Str) (G : Str → ReplyData) (R : Str → Str)
    (b ab email subject body : Str) («to» : Option (List Str))
    (options : DraftOptions) (rd : ReplyData)
    (hr : optStrTruthy options.replyToMessageId = true)
    (hrd : G (options.replyToMessageId.getD []) = rd)
    (ht : emptyRecipients «to» = true)
    (ha : options.replyAll = some true)
    (hc : options.cc.getD [] = []) :
    (createDraft A H G R b ab email «to» subject body options).optionsCc =
      some (filterSelfFromRecipients (rd.«to» ++ rd.cc) email)
  ∧ (∀ e, e ∈ filterSelfFromRecipients (rd.«to» ++ rd.cc) email ↔
      (e ∈ rd.«to» ++ rd.cc ∧ jsToLower e ≠ jsToLower email))
  ∧ List.Sublist (filterSelfFromRecipients (rd.«to» ++ rd.cc) email) (rd.«to» ++ rd.cc)
  ∧ filterSelfFromRecipients [("a@x.com".toList), ("A@X.COM".toList)] ("a@x.com".toList)
      = [] := by
  refine ⟨?_, ?_, List.filter_sublist _, by decide⟩
  · simp only [createDraft, hr, if_true, hrd, ht, ha]
    simp [hc]
  · intro e
    simp [filterSelfFromRecipients, List.mem_filter]
    tauto

/-- Witness for C6: concrete reply-all auto-fill removing both casings of
the self address. -/
theorem c6_witness :
    (createDraft (fun _ _ => []) (fun _ _ => []) (fun _ => sampleReply) (fun _ => [])
        [] [] ("me@x.com".toList) none [] []
        { replyToMessageId := some ("m".toList), replyAll := some true }).optionsCc =
      some [("bob@b.b".toList)] := by
  rw [(c6_reply_all_cc_filtering (fun _ _ => []) (fun _ _ => []) (fun _ => sampleReply)
    (fun _ => []) [] [] ("me@x.com".toList) [] [] none
    { replyToMessageId := some ("m".toList), replyAll := some true }
    sampleReply (by decide) rfl (by decide) rfl (by decide)).1]
  decide

/-- C10: an empty, absent, or single-empty-string recipient list is replaced
by the single address parsed from the original `From` header, identically in
`createDraft` and `sendMessage`. -/
theorem c10_empty_recipient_autofill
    (A H : Str → Str → Str) (G : Str → ReplyData) (R : Str → Str)
    (b ab email subject body : Str)
    (dOpts : DraftOptions) (sOpts : SendOptions) (rd : ReplyData)
    (hrD : optStrTruthy dOpts.replyToMessageId = true)
    (hrS : optStrTruthy sOpts.replyToMessageId = true)
    (hgD : G (dOpts.replyToMessageId.getD []) = rd)
    (hgS : G (sOpts.replyToMessageId.getD []) = rd)
    («to» : Option (List Str))
    (hto : «to» = none ∨ «to» = some [] ∨ «to» = some [([] : Str)]) :
    (createDraft A H G R b ab email «to» subject body dOpts).recipientList =
      some [(parseEmailAddress rd.«from»).email]
  ∧ (sendMessage A H G R b ab email «to» subject body sOpts).recipientList =
      some [(parseEmailAddress rd.«from»).email] := by
  have hempty : emptyRecipients «to» = true := by
    rcases hto with h | h | h <;> subst h <;> rfl
  constructor
  · simp only [createDraft, hrD, if_true, hgD, hempty]
  · simp only [sendMessage, hrS, if_true, hgS, hempty]

/-- Witness for C10: a single-empty-string recipient list auto-fills to the
original sender's address in both compose functions. -/
theorem c10_witness :
    (createDraft (fun _ _ => []) (fun _ _ => []) (fun _ => sampleReply) (fun _ => [])
        [] [] ("me@x.com".toList) (some [([] : Str)]) [] []
        { replyToMessageId := some ("m".toList) }).recipientList =
      some [("john@example.com".toList)]
  ∧ (sendMessage (fun _ _ => []) (fun _ _ => []) (fun _ => sampleReply) (fun _ => [])
        [] [] ("me@x.com".toList) (some [([] : Str)]) [] []
        { replyToMessageId := some ("m".toList) }).recipientList =
      some [("john@example.com".toList)] := by
  have h := c10_empty_recipient_autofill (fun _ _ => []) (fun _ _ => [])
    (fun _ => sampleReply) (fun _ => []) [] [] ("me@x.com".toList) [] []
    { replyToMessageId := some ("m".toList) } { replyToMessageId := some ("m".toList) }
    sampleReply (by decide) (by decide) rfl rfl (some [([] : Str)]) (by simp)
  refine ⟨?_, ?_⟩
  · rw [h.1]; decide
  · rw [h.2]; decide

/-- C4 counterexample: a reply-all compose call writes the merged recipient
list back onto the options object's `cc` field — after the call the `cc`
value differs from the caller-supplied one (here `none`). -/
theorem c4_counterexample :
    (createDraft (fun _ _ => []) (fun _ _ => []) (fun _ => sampleReply) (fun _ => [])
        [] [] ("me@x.com".toList) none [] []
        { replyToMessageId := some ("m".toList), replyAll := some true }).optionsCc ≠
      ({ replyToMessageId := some ("m".toList), replyAll := some true } : DraftOptions).cc := by
  decide

/-- C4 (amended): the `to`/`subject`/`body` arguments are shadowed by
locals and never written back, but `options.cc` is reassigned whenever the
reply auto-fill runs with the reply-all flag and an empty recipient list —
it then becomes the caller's cc followed by the filtered original
recipients; in every other situation `options.cc` is left unchanged.  This
holds identically in `createDraft` and `sendMessage`. -/
theorem c4_amended_options_cc_writeback
    (A H : Str → Str → Str) (G : Str → ReplyData) (R : Str → Str)
    (b ab email subject body : Str) («to» : Option (List Str))
    (dOpts : DraftOptions) (sOpts : SendOptions) (rd : ReplyData)
    (hgD : G (dOpts.replyToMessageId.getD []) = rd)
    (hgS : G (sOpts.replyToMessageId.getD []) = rd) :
    ((optStrTruthy dOpts.replyToMessageId = true → emptyRecipients «to» = true →
        dOpts.replyAll.getD false = true →
        (createDraft A H G R b ab email «to» subject body dOpts).optionsCc =
          some ((dOpts.cc.getD []) ++ filterSelfFromRecipients (rd.«to» ++ rd.cc) email))
    ∧ (optStrTruthy dOpts.replyToMessageId = false →
        (createDraft A H G R b ab email «to» subject body dOpts).optionsCc = dOpts.cc)
    ∧ (emptyRecipients «to» = false →
        (createDraft A H G R b ab email «to» subject body dOpts).optionsCc = dOpts.cc)
    ∧ (dOpts.replyAll.getD false = false →
        (createDraft A H G R b ab email «to» subject body dOpts).optionsCc = dOpts.cc))
  ∧ ((optStrTruthy sOpts.replyToMessageId = true → emptyRecipients «to» = true →
        sOpts.replyAll.getD false = true →
        (sendMessage A H G R b ab email «to» subject body sOpts).optionsCc =
          some ((sOpts.cc.getD []) ++ filterSelfFromRecipients (rd.«to» ++ rd.cc) email))
    ∧ (optStrTruthy sOpts.replyToMessageId = false →
        (sendMessage A H G R b ab email «to» subject body sOpts).optionsCc = sOpts.cc)
    ∧ (emptyRecipients «to» = false →
        (sendMessage A H G R b ab email «to» subject body sOpts).optionsCc = sOpts.cc)
    ∧ (sOpts.replyAll.getD false = false →
        (sendMessage A H G R b ab email «to» subject body sOpts).optionsCc = sOpts.cc)) := by
  constructor
  · refine ⟨?_, ?_, ?_, ?_⟩
    · intro h1 h2 h3
      simp only [createDraft, h1, if_true, hgD, h2, h3]
      simp
    · intro h1
      simp only [createDraft, h1]
      simp
    · intro h2
      by_cases h1 : optStrTruthy dOpts.replyToMessageId = true
      · simp only [createDraft, h1, if_true, hgD, h2]
        simp
      · simp only [createDraft, Bool.eq_false_iff.mpr h1]
        simp
    · intro h3
      by_cases h1 : optStrTruthy dOpts.replyToMessageId = true
      · simp only [createDraft, h1, if_true, hgD, h3]
        simp
      · simp only [createDraft, Bool.eq_false_iff.mpr h1]
        simp
  · refine ⟨?_, ?_, ?_, ?_⟩
    · intro h1 h2 h3
      simp only [sendMessage, h1, if_true, hgS, h2, h3]
      simp
    · intro h1
      simp only [sendMessage, h1]
      simp
    · intro h2
      by_cases h1 : optStrTruthy sOpts.replyToMessageId = true
      · simp only [sendMessage, h1, if_true, hgS, h2]
        simp
      · simp only [sendMessage, Bool.eq_false_iff.mpr h1]
        simp
    · intro h3
      by_cases h1 : optStrTruthy sOpts.replyToMessageId = true
      · simp only [sendMessage, h1, if_true, hgS, h3]
        simp
      · simp only [sendMessage, Bool.eq_false_iff.mpr h1]
        simp

/-- Witness for C4: the amended write-back characterisation at a concrete
reply-all call. -/
theorem c4_witness :
    (createDraft (fun _ _ => []) (fun _ _ => []) (fun _ => sampleReply) (fun _ => [])
        [] [] ("me@x.com".toList) none [] []
        { replyToMessageId := some ("m".toList), replyAll := some true }).optionsCc =
      some [("bob@b.b".toList)] := by
  have h := (c4_amended_options_cc_writeback (fun _ _ => []) (fun _ _ => [])
    (fun _ => sampleReply) (fun _ => []) [] [] ("me@x.com".toList) [] [] none
    { replyToMessageId := some ("m".toList), replyAll := some true }
    { replyToMessageId := some ("m".toList), replyAll := some true }
    sampleReply rfl rfl).1.1 (by decide) (by decide) (by decide)
  rw [h]
  decide

theorem prefix_head_eq {p l : Str} (hpre : p <+: l) (hp : p ≠ []) :
    p.head? = l.head? := by
  obtain ⟨t, rfl⟩ := hpre
  cases p with
  | nil => exact absurd rfl hp
  | cons a q => rfl

theorem buildHeaders_no_threading (email : Str) (afr : AutoFillResult)
    (bcc : Option (List Str)) (ct : Str)
    (h1 : afr.inReplyTo = none ∨ afr.inReplyTo = some [])
    (h2 : afr.references = none ∨ afr.references = some []) :
    ∀ h ∈ buildHeaders email afr bcc ct,
      ¬ (("In-Reply-To: ".toList : Str) <+: h) ∧
      ¬ (("References: ".toList : Str) <+: h) := by
  intro h hmem
  unfold buildHeaders at hmem
  obtain ⟨hmem', hne⟩ := List.mem_filter.mp hmem
  have hnil : h ≠ [] := by
    intro hh
    subst hh
    simp at hne
  simp only [List.mem_cons, List.not_mem_nil, or_false] at hmem'
  rcases hmem' with hc | hc | hc | hc | hc | hc | hc | hc | hc
  · subst hc
    exact ⟨fun hpre => absurd (List.cons_prefix_cons.mp hpre).1 (by decide),
           fun hpre => absurd (List.cons_prefix_cons.mp hpre).1 (by decide)⟩
  · subst hc
    exact ⟨fun hpre => absurd (List.cons_prefix_cons.mp hpre).1 (by decide),
           fun hpre => absurd (List.cons_prefix_cons.mp hpre).1 (by decide)⟩
  · rcases hcc : afr.optionsCc with _ | cc
    all_goals rw [hcc] at hc
    · exact absurd (show h = [] from hc) hnil
    · have hc' : h = if (!cc.isEmpty) = true
          then ("Cc: ".toList) ++ jsJoin (", ".toList) cc else [] := hc
      by_cases he : cc.isEmpty = true
      · rw [he] at hc'
        simp only [Bool.not_true] at hc'
        rw [if_neg (by simp)] at hc'
        exact absurd hc' hnil
      · have he' : cc.isEmpty = false := by simpa using he
        rw [he'] at hc'
        simp only [Bool.not_false, if_pos] at hc'
        subst hc'
        exact ⟨fun hpre => absurd (List.cons_prefix_cons.mp hpre).1 (by decide),
               fun hpre => absurd (List.cons_prefix_cons.mp hpre).1 (by decide)⟩
  · rcases hcc : bcc with _ | l
    all_goals rw [hcc] at hc
    · exact absurd (show h = [] from hc) hnil
    · have hc' : h = if (!l.isEmpty) = true
          then ("Bcc: ".toList) ++ jsJoin (", ".toList) l else [] := hc
      by_cases he : l.isEmpty = true
      · rw [he] at hc'
        simp only [Bool.not_true] at hc'
        rw [if_neg (by simp)] at hc'
        exact absurd hc' hnil
      · have he' : l.isEmpty = false := by simpa using he
        rw [he'] at hc'
        simp only [Bool.not_false, if_pos] at hc'
        subst hc'
        exact ⟨fun hpre => absurd (List.cons_prefix_cons.mp hpre).1 (by decide),
               fun hpre => absurd (List.cons_prefix_cons.mp hpre).1 (by decide)⟩
  · subst hc
    exact ⟨fun hpre => absurd (List.cons_prefix_cons.mp hpre).1 (by decide),
           fun hpre => absurd (List.cons_prefix_cons.mp hpre).1 (by decide)⟩
  · rcases h1 with h1 | h1
    all_goals rw [h1] at hc
    · exact absurd (show h = [] from hc) hnil
    · exact absurd (show h = [] from hc) hnil
  · rcases h2 with h2 | h2
    all_goals rw [h2] at hc
    · exact absurd (show h = [] from hc) hnil
    · exact absurd (show h = [] from hc) hnil
  · subst hc
    exact ⟨by decide, by decide⟩
  · subst hc
    exact ⟨fun hpre => absurd (List.cons_prefix_cons.mp hpre).1 (by decide),
           fun hpre => absurd (List.cons_prefix_cons.mp hpre).1 (by decide)⟩

theorem buildHeaders_no_inReplyTo (email : Str) (afr : AutoFillResult)
    (bcc : Option (List Str)) (ct : Str)
    (h1 : afr.inReplyTo = none ∨ afr.inReplyTo = some []) :
    ∀ h ∈ buildHeaders email afr bcc ct,
      ¬ (("In-Reply-To: ".toList : Str) <+: h) := by
  intro h hmem
  unfold buildHeaders at hmem
  obtain ⟨hmem', hne⟩ := List.mem_filter.mp hmem
  have hnil : h ≠ [] := by
    intro hh
    subst hh
    simp at hne
  simp only [List.mem_cons, List.not_mem_nil, or_false] at hmem'
  rcases hmem' with hc | hc | hc | hc | hc | hc | hc | hc | hc
  · subst hc
    exact fun hpre => absurd (List.cons_prefix_cons.mp hpre).1 (by decide)
  · subst hc
    exact fun hpre => absurd (List.cons_prefix_cons.mp hpre).1 (by decide)
  · rcases hcc : afr.optionsCc with _ | cc
    all_goals rw [hcc] at hc
    · exact absurd (show h = [] from hc) hnil
    · have hc' : h = if (!cc.isEmpty) = true
          then ("Cc: ".toList) ++ jsJoin (", ".toList) cc else [] := hc
      by_cases he : cc.isEmpty = true
      · rw [he] at hc'
        simp only [Bool.not_true] at hc'
        rw [if_neg (by simp)] at hc'
        exact absurd hc' hnil
      · have he' : cc.isEmpty = false := by simpa using he
        rw [he'] at hc'
        simp only [Bool.not_false, if_pos] at hc'
        subst hc'
        exact fun hpre => absurd (List.cons_prefix_cons.mp hpre).1 (by decide)
  · rcases hcc : bcc with _ | l
    all_goals rw [hcc] at hc
    · exact absurd (show h = [] from hc) hnil
    · have hc' : h = if (!l.isEmpty) = true
          then ("Bcc: ".toList) ++ jsJoin (", ".toList) l else [] := hc
      by_cases he : l.isEmpty = true
      · rw [he] at hc'
        simp only [Bool.not_true] at hc'
        rw [if_neg (by simp)] at hc'
        exact absurd hc' hnil
      · have he' : l.isEmpty = false := by simpa using he
        rw [he'] at hc'
        simp only [Bool.not_false, if_pos] at hc'
        subst hc'
        exact fun hpre => absurd (List.cons_prefix_cons.mp hpre).1 (by decide)
  · subst hc
    exact fun hpre => absurd (List.cons_prefix_cons.mp hpre).1 (by decide)
  · rcases h1 with h1 | h1
    all_goals rw [h1] at hc
    · exact absurd (show h = [] from hc) hnil
    · exact absurd (show h = [] from hc) hnil
  · rcases href : afr.references with _ | refs
    all_goals rw [href] at hc
    · exact absurd (show h = [] from hc) hnil
    · have hc' : h = if (!refs.isEmpty) = true
          then ("References: ".toList) ++ refs else [] := hc
      by_cases he : refs.isEmpty = true
      · rw [he] at hc'
        simp only [Bool.not_true] at hc'
        rw [if_neg (by simp)] at hc'
        exact absurd hc' hnil
      · have he' : refs.isEmpty = false := by simpa using he
        rw [he'] at hc'
        simp only [Bool.not_false, if_pos] at hc'
        subst hc'
        exact fun hpre => absurd (List.cons_prefix_cons.mp hpre).1 (by decide)
  · subst hc
    exact by decide
  · subst hc
    exact fun hpre => absurd (List.cons_prefix_cons.mp hpre).1 (by decide)

theorem buildHeaders_references_iff (email : Str) (afr : AutoFillResult)
    (bcc : Option (List Str)) (ct : Str) (refs : Str)
    (h2 : afr.references = some refs) :
    ((buildHeaders email afr bcc ct).any
        (fun h => ("References: ".toList).isPrefixOf h)) = true ↔ refs ≠ [] := by
  constructor
  · intro hany
    obtain ⟨h, hmem, hpre'⟩ := List.any_eq_true.mp hany
    have hpre : (("References: ".toList) : Str) <+: h :=
      List.isPrefixOf_iff_prefix.mp hpre'
    unfold buildHeaders at hmem
    obtain ⟨hmem', hne⟩ := List.mem_filter.mp hmem
    have hnil : h ≠ [] := by
      intro hh
      subst hh
      simp at hne
    simp only [List.mem_cons, List.not_mem_nil, or_false] at hmem'
    rcases hmem' with hc | hc | hc | hc | hc | hc | hc | hc | hc
    · subst hc
      exact absurd (List.cons_prefix_cons.mp hpre).1 (by decide)
    · subst hc
      exact absurd (List.cons_prefix_cons.mp hpre).1 (by decide)
    · rcases hcc : afr.optionsCc with _ | cc
      all_goals rw [hcc] at hc
      · exact absurd (show h = [] from hc) hnil
      · have hc' : h = if (!cc.isEmpty) = true
            then ("Cc: ".toList) ++ jsJoin (", ".toList) cc else [] := hc
        by_cases he : cc.isEmpty = true
        · rw [he] at hc'
          simp only [Bool.not_true] at hc'
          rw [if_neg (by simp)] at hc'
          exact absurd hc' hnil
        · have he' : cc.isEmpty = false := by simpa using he
          rw [he'] at hc'
          simp only [Bool.not_false, if_pos] at hc'
          subst hc'
          exact absurd (List.cons_prefix_cons.mp hpre).1 (by decide)
    · rcases hcc : bcc with _ | l
      all_goals rw [hcc] at hc
      · exact absurd (show h = [] from hc) hnil
      · have hc' : h = if (!l.isEmpty) = true
            then ("Bcc: ".toList) ++ jsJoin (", ".toList) l else [] := hc
        by_cases he : l.isEmpty = true
        · rw [he] at hc'
          simp only [Bool.not_true] at hc'
          rw [if_neg (by simp)] at hc'
          exact absurd hc' hnil
        · have he' : l.isEmpty = false := by simpa using he
          rw [he'] at hc'
          simp only [Bool.not_false, if_pos] at hc'
          subst hc'
          exact absurd (List.cons_prefix_cons.mp hpre).1 (by decide)
    · subst hc
      exact absurd (List.cons_prefix_cons.mp hpre).1 (by decide)
    · rcases hirt : afr.inReplyTo with _ | irt
      all_goals rw [hirt] at hc
      · exact absurd (show h = [] from hc) hnil
      · have hc' : h = if (!irt.isEmpty) = true
            then ("In-Reply-To: ".toList) ++ irt else [] := hc
        by_cases he : irt.isEmpty = true
        · rw [he] at hc'
          simp only [Bool.not_true] at hc'
          rw [if_neg (by simp)] at hc'
          exact absurd hc' hnil
        · have he' : irt.isEmpty = false := by simpa using he
          rw [he'] at hc'
          simp only [Bool.not_false, if_pos] at hc'
          subst hc'
          exact absurd (List.cons_prefix_cons.mp hpre).1 (by decide)
    · rw [h2] at hc
      have hc' : h = if (!refs.isEmpty) = true
          then ("References: ".toList) ++ refs else [] := hc
      by_cases he : refs.isEmpty = true
      · rw [he] at hc'
        simp only [Bool.not_true] at hc'
        rw [if_neg (by simp)] at hc'
        exact absurd hc' hnil
      · simpa [List.isEmpty_iff] using he
    · subst hc
      exact absurd (List.cons_prefix_cons.mp hpre).1 (by decide)
    · subst hc
      exact absurd (List.cons_prefix_cons.mp hpre).1 (by decide)
  · intro hrefs
    have he : refs.isEmpty = false := by simpa [List.isEmpty_iff] using hrefs
    apply List.any_eq_true.mpr
    refine ⟨("References: ".toList) ++ refs, ?_, ?_⟩
    · unfold buildHeaders
      apply List.mem_filter.mpr
      refine ⟨?_, by simp⟩
      simp only [List.mem_cons]
      right; right; right; right; right; right; left
      rw [h2]
      simp [he]
    · exact List.isPrefixOf_iff_prefix.mpr (List.prefix_append _ _)

theorem createDraft_headers_shape (A H : Str → Str → Str) (G : Str → ReplyData)
    (R : Str → Str) (b ab email subject body : Str) («to» : Option (List Str))
    (options : DraftOptions)
    (hr : optStrTruthy options.replyToMessageId = true) :
    ∃ (afr : AutoFillResult) (ct : Str),
      (createDraft A H G R b ab email «to» subject body options).headers =
        buildHeaders email afr options.bcc ct
      ∧ afr.inReplyTo = some (G (options.replyToMessageId.getD [])).inReplyTo
      ∧ afr.references = some (G (options.replyToMessageId.getD [])).references := by
  simp only [createDraft, hr, if_true]
  exact ⟨_, _, rfl, rfl, rfl⟩

/-- C3 counterexample: a fetched reply target lacking a `Message-ID` header
but carrying a `References` header still produces a `References:` line in
the composed header block (the existing chain is carried forward), so the
claim that both threading headers are omitted is false. -/
theorem c3_counterexample :
    getHeader ((c3Message.payload.bind Payload.headersOf).getD [])
      ("Message-ID".toList) = []
  ∧ ((createDraft (fun _ _ => []) (fun _ _ => [])
        (fun m => getMessageForReply (fun d => d) none (fun _ => c3Message) m)
        (fun _ => []) [] [] ("me@x.com".toList) none [] []
        { replyToMessageId := some ("m9".toList) }).headers).any
      (fun h => ("References: ".toList).isPrefixOf h) = true := by
  exact ⟨by decide, by decide⟩

/-- C3 (amended): when the fetched reply target lacks a `Message-ID` header,
`inReplyTo` is empty and no line of the composed header block carries an
`In-Reply-To:` prefix, unconditionally; a `References:` line appears in the
composed header block exactly when the original message has a non-empty
`References` header, in which case the existing chain is carried forward
with a trailing space; the composition still succeeds — the embedding is
total and produces the ordinary header block. -/
theorem c3_amended_missing_message_id
    (decode : Str → Str) (threadResult : Option (Option (List Str)))
    (fetch : Str → FullMessage) (mid : Str)
    (A H : Str → Str → Str) (R : Str → Str) (b ab email subject body : Str)
    («to» : Option (List Str)) (options : DraftOptions)
    (hopt : options.replyToMessageId = some mid) (hmne : mid ≠ [])
    (hmid : getHeader (fetchedHeaders fetch threadResult mid) ("Message-ID".toList) = []) :
    (getMessageForReply decode threadResult fetch mid).inReplyTo = []
  ∧ (∀ h ∈ (createDraft A H (fun m => getMessageForReply decode threadResult fetch m)
        R b ab email «to» subject body options).headers,
      ¬ (("In-Reply-To: ".toList : Str) <+: h))
  ∧ (((createDraft A H (fun m => getMessageForReply decode threadResult fetch m)
        R b ab email «to» subject body options).headers).any
        (fun h => ("References: ".toList).isPrefixOf h) = true
      ↔ getHeader (fetchedHeaders fetch threadResult mid) ("References".toList) ≠ [])
  ∧ (getHeader (fetchedHeaders fetch threadResult mid) ("References".toList) ≠ [] →
      (getMessageForReply decode threadResult fetch mid).references =
        getHeader (fetchedHeaders fetch threadResult mid) ("References".toList) ++
          (" ".toList)) := by
  have hin : (getMessageForReply decode threadResult fetch mid).inReplyTo =
      getHeader (fetchedHeaders fetch threadResult mid) ("Message-ID".toList) := rfl
  have hrefdef : (getMessageForReply decode threadResult fetch mid).references =
      (if !(getHeader (fetchedHeaders fetch threadResult mid) ("References".toList)).isEmpty
       then getHeader (fetchedHeaders fetch threadResult mid) ("References".toList) ++
         (" ".toList) ++ getHeader (fetchedHeaders fetch threadResult mid) ("Message-ID".toList)
       else getHeader (fetchedHeaders fetch threadResult mid) ("Message-ID".toList)) := rfl
  have hinnil : (getMessageForReply decode threadResult fetch mid).inReplyTo = [] := by
    rw [hin, hmid]
  have hr : optStrTruthy options.replyToMessageId = true := by
    rw [hopt]
    simpa [optStrTruthy, List.isEmpty_iff] using hmne
  obtain ⟨afr, ct, hH, hIR, hRef⟩ := createDraft_headers_shape A H
    (fun m => getMessageForReply decode threadResult fetch m) R b ab email subject body
    «to» options hr
  rw [hopt] at hIR hRef
  simp only [Option.getD_some] at hIR hRef
  refine ⟨hinnil, ?_, ?_, ?_⟩
  · rw [hH]
    apply buildHeaders_no_inReplyTo
    right
    rw [hIR, hinnil]
  · rw [hH]
    refine (buildHeaders_references_iff email afr options.bcc ct
      ((getMessageForReply decode threadResult fetch mid).references) hRef).trans ?_
    by_cases hE : getHeader (fetchedHeaders fetch threadResult mid)
        ("References".toList) = []
    · have hrnil : (getMessageForReply decode threadResult fetch mid).references = [] := by
        rw [hrefdef, hE, hmid]
        simp
      rw [hrnil, hE]
    · have hEe : (getHeader (fetchedHeaders fetch threadResult mid)
          ("References".toList)).isEmpty = false := by
        simpa [List.isEmpty_iff] using hE
      have hrval : (getMessageForReply decode threadResult fetch mid).references =
          getHeader (fetchedHeaders fetch threadResult mid) ("References".toList) ++
            (" ".toList) := by
        rw [hrefdef, hEe, hmid]
        simp
      rw [hrval]
      constructor
      · intro _
        exact hE
      · intro _
        simp
  · intro hne
    rw [hrefdef, hmid]
    have : (getHeader (fetchedHeaders fetch threadResult mid)
        ("References".toList)).isEmpty = false := by
      simpa [List.isEmpty_iff] using hne
    rw [this]
    simp

/-- Witness for C3: a fetched message carrying a `References` header but no
`Message-ID` gives empty `inReplyTo`, a `References:` line in the composed
block, and the carried-forward chain with its trailing space. -/
theorem c3_witness :
    (getMessageForReply (fun d => d) none (fun _ => c3Message) ("m9".toList)).inReplyTo = []
  ∧ ((createDraft (fun _ _ => []) (fun _ _ => [])
        (fun m => getMessageForReply (fun d => d) none (fun _ => c3Message) m)
        (fun _ => []) [] [] ("me@x.com".toList) none [] []
        { replyToMessageId := some ("m9".toList) }).headers).any
      (fun h => ("References: ".toList).isPrefixOf h) = true
  ∧ (getMessageForReply (fun d => d) none (fun _ => c3Message) ("m9".toList)).references =
      getHeader (fetchedHeaders (fun _ => c3Message) none ("m9".toList))
        ("References".toList) ++ (" ".toList) := by
  have h := c3_amended_missing_message_id (fun d => d) none (fun _ => c3Message)
    ("m9".toList) (fun _ _ => []) (fun _ _ => []) (fun _ => []) [] [] ("me@x.com".toList)
    [] [] none { replyToMessageId := some ("m9".toList) } rfl (by decide) (by decide)
  exact ⟨h.1, h.2.2.1.mpr (by decide), h.2.2.2 (by decide)⟩

/-- C2: content-type selection and MIME part structure of the two compose
functions.  With attachments the message is `multipart/mixed` whose first
section is a nested `multipart/alternative` (exactly one `text/plain` and
one `text/html` section, in that order) when a quote is included and a
single `text/plain` section otherwise, followed by one section per
attachment with base64 transfer encoding, attachment disposition and the
file basename; with no attachments but a quote it is a top-level
`multipart/alternative` of exactly those two sections; with neither it is a
flat `text/plain` body. -/
theorem c2_mime_structure
    (A H : Str → Str → Str) (G : Str → ReplyData) (R : Str → Str)
    (b ab email subject body : Str) («to» : Option (List Str))
    (dOpts : DraftOptions) (sOpts : SendOptions) (rd : ReplyData)
    (hgD : G (dOpts.replyToMessageId.getD []) = rd)
    (hgS : G (sOpts.replyToMessageId.getD []) = rd) :
    (attachmentsPresent dOpts.attachments = true →
      (createDraft A H G R b ab email «to» subject body dOpts).contentType =
        ("multipart/mixed; boundary=\"".toList) ++ b ++ ("\"".toList)
    ∧ (createDraft A H G R b ab email «to» subject body dOpts).emailContent =
        jsJoin ("\r\n".toList)
          (createDraft A H G R b ab email «to» subject body dOpts).headers ++
        ("\r\n\r\n".toList) ++
        multipartAssemble b
          ((if optStrTruthy dOpts.replyToMessageId &&
                decide (dOpts.includeQuote ≠ some false) then
              nestedAltSection ab
                (createDraft A H G R b ab email «to» subject body dOpts).bodyText
                (formatHtmlReplyBody H body rd.date rd.«from» rd.body rd.htmlBody)
            else
              plainSection
                (createDraft A H G R b ab email «to» subject body dOpts).bodyText) ::
            (dOpts.attachments.getD []).map (fun fp =>
              specAttachmentSection (getMimeType (basename fp)) (basename fp) (R fp))))
  ∧ (attachmentsPresent dOpts.attachments = false →
      optStrTruthy dOpts.replyToMessageId = true →
      dOpts.includeQuote ≠ some false →
      (createDraft A H G R b ab email «to» subject body dOpts).contentType =
        ("multipart/alternative; boundary=\"".toList) ++ ab ++ ("\"".toList)
    ∧ (createDraft A H G R b ab email «to» subject body dOpts).emailContent =
        jsJoin ("\r\n".toList)
          (createDraft A H G R b ab email «to» subject body dOpts).headers ++
        ("\r\n\r\n".toList) ++
        multipartAssemble ab
          (altSections (createDraft A H G R b ab email «to» subject body dOpts).bodyText
            (formatHtmlReplyBody H body rd.date rd.«from» rd.body rd.htmlBody)))
  ∧ (attachmentsPresent dOpts.attachments = false →
      (optStrTruthy dOpts.replyToMessageId = false ∨ dOpts.includeQuote = some false) →
      (createDraft A H G R b ab email «to» subject body dOpts).contentType =
        ("text/plain; charset=UTF-8".toList)
    ∧ (createDraft A H G R b ab email «to» subject body dOpts).emailContent =
        jsJoin ("\r\n".toList)
          (createDraft A H G R b ab email «to» subject body dOpts).headers ++
        ("\r\n\r\n".toList) ++
        (createDraft A H G R b ab email «to» subject body dOpts).bodyText
    ∧ (createDraft A H G R b ab email «to» subject body dOpts).parts = [])
  ∧ (∀ x y : Str,
      (altSections x y).countP
        (fun s => ("Content-Type: text/plain".toList).isPrefixOf s) = 1
    ∧ (altSections x y).countP
        (fun s => ("Content-Type: text/html".toList).isPrefixOf s) = 1
    ∧ (altSections x y).length = 2)
  ∧ (attachmentsPresent sOpts.attachments = true →
      (sendMessage A H G R b ab email «to» subject body sOpts).contentType =
        ("multipart/mixed; boundary=\"".toList) ++ b ++ ("\"".toList)
    ∧ (sendMessage A H G R b ab email «to» subject body sOpts).emailContent =
        jsJoin ("\r\n".toList)
          (sendMessage A H G R b ab email «to» subject body sOpts).headers ++
        ("\r\n\r\n".toList) ++
        multipartAssemble b
          ((if optStrTruthy sOpts.replyToMessageId &&
                decide (sOpts.includeQuote ≠ some false) then
              nestedAltSection ab
                (sendMessage A H G R b ab email «to» subject body sOpts).bodyText
                (formatHtmlReplyBody H body rd.date rd.«from» rd.body rd.htmlBody)
            else
              plainSection
                (sendMessage A H G R b ab email «to» subject body sOpts).bodyText) ::
            (sOpts.attachments.getD []).map (fun fp =>
              specAttachmentSection (getMimeType (basename fp)) (basename fp) (R fp))))
  ∧ (attachmentsPresent sOpts.attachments = false →
      optStrTruthy sOpts.replyToMessageId = true →
      sOpts.includeQuote ≠ some false →
      (sendMessage A H G R b ab email «to» subject body sOpts).contentType =
        ("multipart/alternative; boundary=\"".toList) ++ ab ++ ("\"".toList)
    ∧ (sendMessage A H G R b ab email «to» subject body sOpts).emailContent =
        jsJoin ("\r\n".toList)
          (sendMessage A H G R b ab email «to» subject body sOpts).headers ++
        ("\r\n\r\n".toList) ++
        multipartAssemble ab
          (altSections (sendMessage A H G R b ab email «to» subject body sOpts).bodyText
            (formatHtmlReplyBody H body rd.date rd.«from» rd.body rd.htmlBody)))
  ∧ (attachmentsPresent sOpts.attachments = false →
      (optStrTruthy sOpts.replyToMessageId = false ∨ sOpts.includeQuote = some false) →
      (sendMessage A H G R b ab email «to» subject body sOpts).contentType =
        ("text/plain; charset=UTF-8".toList)
    ∧ (sendMessage A H G R b ab email «to» subject body sOpts).emailContent =
        jsJoin ("\r\n".toList)
          (sendMessage A H G R b ab email «to» subject body sOpts).headers ++
        ("\r\n\r\n".toList) ++
        (sendMessage A H G R b ab email «to» subject body sOpts).bodyText
    ∧ (sendMessage A H G R b ab email «to» subject body sOpts).parts = []) := by
  refine ⟨?_, ?_, ?_, altSections_counts, ?_, ?_, ?_⟩
  · intro ha
    by_cases hq : optStrTruthy dOpts.replyToMessageId = true
    · simp only [createDraft, hq, if_true, hgD, ha, quoteIncluded, Option.isSome_some]
      refine ⟨by trivial, ?_⟩
      by_cases h2 : (true && decide (dOpts.includeQuote ≠ some false)) = true
      · rw [if_pos h2, if_pos h2, mixedAltPart_spec]
        simp only [List.append_assoc]
        rw [mixed_assemble]
      · rw [if_neg h2, if_neg h2, mixedPlain_spec]
        simp only [List.append_assoc]
        rw [mixed_assemble]
    · have hq' : optStrTruthy dOpts.replyToMessageId = false := by simpa using hq
      simp only [createDraft, hq', Bool.false_eq_true, if_false, ha, quoteIncluded,
        Option.isSome_none, Bool.false_and]
      refine ⟨by trivial, ?_⟩
      rw [mixedPlain_spec]
      simp only [List.append_assoc]
      rw [mixed_assemble]
      rfl
  · intro ha hq hiq
    have hd : decide (dOpts.includeQuote ≠ some false) = true := decide_eq_true hiq
    simp only [createDraft, hq, if_true, hgD, ha, quoteIncluded, Option.isSome_some, hd,
      Bool.true_and, Bool.false_eq_true, if_false]
    refine ⟨by trivial, ?_⟩
    simp only [List.append_assoc]
    rw [altPair_spec]
  · intro ha hqf
    rcases hqf with hq | hiq
    · simp only [createDraft, hq, Bool.false_eq_true, if_false, ha, quoteIncluded,
        Option.isSome_none, Bool.false_and]
      exact ⟨by trivial, by trivial, by trivial⟩
    · have hd : decide (dOpts.includeQuote ≠ some false) = false := by
        simp [hiq]
      by_cases hq : optStrTruthy dOpts.replyToMessageId = true
      · simp only [createDraft, hq, if_true, hgD, ha, quoteIncluded, Option.isSome_some,
          hd, Bool.and_false, Bool.false_eq_true, if_false]
        exact ⟨by trivial, by trivial, by trivial⟩
      · have hq' : optStrTruthy dOpts.replyToMessageId = false := by simpa using hq
        simp only [createDraft, hq', Bool.false_eq_true, if_false, ha, quoteIncluded,
          Option.isSome_none, Bool.false_and]
        exact ⟨by trivial, by trivial, by trivial⟩
  · intro ha
    by_cases hq : optStrTruthy sOpts.replyToMessageId = true
    · simp only [sendMessage, hq, if_true, hgS, ha, quoteIncluded, Option.isSome_some]
      refine ⟨by trivial, ?_⟩
      by_cases h2 : (true && decide (sOpts.includeQuote ≠ some false)) = true
      · rw [if_pos h2, if_pos h2, mixedAltPart_spec]
        simp only [List.append_assoc]
        rw [mixed_assemble]
      · rw [if_neg h2, if_neg h2, mixedPlain_spec]
        simp only [List.append_assoc]
        rw [mixed_assemble]
    · have hq' : optStrTruthy sOpts.replyToMessageId = false := by simpa using hq
      simp only [sendMessage, hq', Bool.false_eq_true, if_false, ha, quoteIncluded,
        Option.isSome_none, Bool.false_and]
      refine ⟨by trivial, ?_⟩
      rw [mixedPlain_spec]
      simp only [List.append_assoc]
      rw [mixed_assemble]
      rfl
  · intro ha hq hiq
    have hd : decide (sOpts.includeQuote ≠ some false) = true := decide_eq_true hiq
    simp only [sendMessage, hq, if_true, hgS, ha, quoteIncluded, Option.isSome_some, hd,
      Bool.true_and, Bool.false_eq_true, if_false]
    refine ⟨by trivial, ?_⟩
    simp only [List.append_assoc]
    rw [altPair_spec]
  · intro ha hqf
    rcases hqf with hq | hiq
    · simp only [sendMessage, hq, Bool.false_eq_true, if_false, ha, quoteIncluded,
        Option.isSome_none, Bool.false_and]
      exact ⟨by trivial, by trivial, by trivial⟩
    · have hd : decide (sOpts.includeQuote ≠ some false) = false := by
        simp [hiq]
      by_cases hq : optStrTruthy sOpts.replyToMessageId = true
      · simp only [sendMessage, hq, if_true, hgS, ha, quoteIncluded, Option.isSome_some,
          hd, Bool.and_false, Bool.false_eq_true, if_false]
        exact ⟨by trivial, by trivial, by trivial⟩
      · have hq' : optStrTruthy sOpts.replyToMessageId = false := by simpa using hq
        simp only [sendMessage, hq', Bool.false_eq_true, if_false, ha, quoteIncluded,
          Option.isSome_none, Bool.false_and]
        exact ⟨by trivial, by trivial, by trivial⟩

/-- Witness for C2: a concrete reply with one attachment composes a
`multipart/mixed` message. -/
theorem c2_witness :
    (createDraft (fun _ _ => []) (fun _ _ => []) (fun _ => sampleReply)
        (fun _ => ("B64".toList)) ("BND".toList) ("ALT".toList) ("me@x.com".toList)
        none [] ("hi".toList)
        { replyToMessageId := some ("m".toList),
          attachments := some [("/tmp/report.pdf".toList)] }).contentType =
      ("multipart/mixed; boundary=\"".toList) ++ ("BND".toList) ++ ("\"".toList) :=
  ((c2_mime_structure (fun _ _ => []) (fun _ _ => []) (fun _ => sampleReply)
      (fun _ => ("B64".toList)) ("BND".toList) ("ALT".toList) ("me@x.com".toList)
      [] ("hi".toList) none
      { replyToMessageId := some ("m".toList),
        attachments := some [("/tmp/report.pdf".toList)] }
      { replyToMessageId := some ("m".toList) } sampleReply rfl rfl).1 (by decide)).1

/-- C5 counterexample: on a tree whose only leaf is `text/html` (no
`text/plain` part anywhere), the code's plain-text extraction returns the
decoded HTML body, while the claimed text/plain-filtered depth-first search
returns the empty string. -/
theorem c5_counterexample :
    decodeMessageBody id (some c5Payload) = ("HTML".toList) ∧
    specTypedExtract id ("text/plain".toList) (some c5Payload) = [] ∧
    decodeMessageBody id (some c5Payload) ≠
      specTypedExtract id ("text/plain".toList) (some c5Payload) := by
  refine ⟨by decide, by decide, by decide⟩

/-- C5 (amended): provided the decoder maps non-empty data to non-empty
text, the HTML extraction is exactly the claimed level-priority depth-first
search filtered on `text/html` (empty when no such part exists), while the
plain-text extraction follows the amended order: the root node's own body
data is returned regardless of its declared type, then the first direct
`text/plain` child at each level, recursing into every child subtree. -/
theorem c5_amended_body_extraction (decode : Str → Str)
    (hdec : ∀ d : Str, d ≠ [] → decode d ≠ []) (p : Option Payload) :
    decodeHtmlBody decode p = specTypedExtract decode ("text/html".toList) p ∧
    decodeMessageBody decode p = amendedPlainExtract decode p := by
  rcases p with _ | q
  · exact ⟨rfl, rfl⟩
  · exact ⟨decodeHtmlBodyP_eq decode hdec q, decodeMessageBodyP_eq decode hdec q⟩

/-- Witness for C5: the amended theorem applied at the identity decoder and
the concrete counterexample payload. -/
theorem c5_witness :
    decodeHtmlBody id (some c5Payload) =
      specTypedExtract id ("text/html".toList) (some c5Payload) ∧
    decodeMessageBody id (some c5Payload) = amendedPlainExtract id (some c5Payload) :=
  c5_amended_body_extraction id (fun _ h => h) (some c5Payload)

end Gmcli

